import Mathlib

/-!
Shallow embedding, in Lean 4, of the three scripts of `sme-synth-data-gen`
(`scripts/evaluate.py`, `scripts/generate_database.py`) that the verified
claims are about, together with theorems settling those claims.

Modelling conventions:
* Python strings are modelled as lists of Unicode code points (`Str := List Nat`).
* `unicodedata.normalize("NFKC", ·)` and `str.lower()` are modelled
  code-point-wise by explicit tables (`nfkcChar`, `lowerChar`) that are faithful
  on the Latin / Latin-1 / Latin-Extended-A repertoire the dataset uses
  (including all Polish letters) plus the compatibility characters relevant to
  whitespace handling; on code points outside those tables both act as the
  identity, as NFKC and lowercasing do on the bulk of Unicode.
* Python `float` arithmetic is idealised as exact rational arithmetic (`ℚ`);
  decimal literals such as `0.01` are read as the rationals they denote.
* Regular-expression operations from the source are implemented as explicit
  scanners with the same leftmost-match / greedy / backtracking behaviour the
  corresponding pattern has under `re`.
-/

/-- A Python string, as a list of Unicode code points. -/
abbrev Str := List Nat

/-- Converts a Lean string literal to the code-point representation. -/
def str (s : String) : Str := s.data.map Char.toNat

/-- Python `\s` / `str.isspace`: ASCII whitespace plus the Unicode space
    characters Python treats as whitespace. -/
def isPySpace (c : Nat) : Bool :=
  decide (c = 32 ∨ c = 9 ∨ c = 10 ∨ c = 11 ∨ c = 12 ∨ c = 13 ∨
    (28 ≤ c ∧ c ≤ 31) ∨ c = 0x85 ∨ c = 0xA0 ∨ c = 0x1680 ∨
    (0x2000 ≤ c ∧ c ≤ 0x200A) ∨ c = 0x2028 ∨ c = 0x2029 ∨
    c = 0x202F ∨ c = 0x205F ∨ c = 0x3000)

/-- Code-point-wise model of `str.lower()`: ASCII, Latin-1 and
    Latin-Extended-A uppercase letters (which cover the Polish alphabet:
    Ą Ć Ę Ł Ń Ó Ś Ź Ż) are mapped to their lowercase counterparts, the Ohm
    sign case pair is included, and every other code point is fixed. -/
def lowerChar (c : Nat) : Nat :=
  if 65 ≤ c ∧ c ≤ 90 then c + 32
  else if 0xC0 ≤ c ∧ c ≤ 0xDE ∧ c ≠ 0xD7 then c + 32
  else if 0x100 ≤ c ∧ c ≤ 0x137 ∧ c % 2 = 0 then c + 1
  else if 0x139 ≤ c ∧ c ≤ 0x148 ∧ c % 2 = 1 then c + 1
  else if 0x14A ≤ c ∧ c ≤ 0x177 ∧ c % 2 = 0 then c + 1
  else if c = 0x178 then 0xFF
  else if 0x179 ≤ c ∧ c ≤ 0x17E ∧ c % 2 = 1 then c + 1
  else if c = 0x3A9 then 0x3C9
  else c

/-- Code-point-wise model of `unicodedata.normalize("NFKC", ·)`: the
    compatibility space characters collapse to U+0020, the Ohm sign composes
    to Greek capital omega, the fi / fl ligatures and superscript digits
    decompose; all other code points (in particular every Polish letter,
    which NFKC leaves unchanged) are fixed. -/
def nfkcChar (c : Nat) : List Nat :=
  if c = 0xA0 then [32]
  else if (0x2000 ≤ c ∧ c ≤ 0x200A) ∨ c = 0x202F ∨ c = 0x205F ∨ c = 0x3000 then [32]
  else if c = 0x2126 then [0x3A9]
  else if c = 0xFB01 then [102, 105]
  else if c = 0xFB02 then [102, 108]
  else if c = 0xB2 then [50]
  else if c = 0xB3 then [51]
  else [c]

/-- NFKC normalization of a string, applied code-point-wise. -/
def nfkcStr (s : Str) : Str := s.flatMap nfkcChar

/-- Python `str.lower()` on a whole string. -/
def lowerStr (s : Str) : Str := s.map lowerChar

/-- Python `str.strip()`: remove leading and trailing whitespace. -/
def pyStrip (s : Str) : Str :=
  ((s.dropWhile isPySpace).reverse.dropWhile isPySpace).reverse

/-- Model of `re.sub(r"\s+", " ", text)`: every maximal run of whitespace is
    replaced by a single ASCII space. -/
def collapseWs : Str → Str
  | [] => []
  | [c] => [if isPySpace c then 32 else c]
  | a :: b :: rest =>
    if isPySpace a && isPySpace b then collapseWs (b :: rest)
    else (if isPySpace a then 32 else a) :: collapseWs (b :: rest)

/-- Embedding of `normalize_text` from `scripts/evaluate.py`: NFKC-normalize,
    lowercase, strip, then collapse internal whitespace runs to single
    spaces. -/
def normalize_text (s : Str) : Str :=
  collapseWs (pyStrip (lowerStr (nfkcStr s)))

example : normalize_text (str "  Ala  MA kotA ") = str "ala ma kota" := by decide
example : normalize_text (str "ŁÓDŹ  Żółć") = str "łódź żółć" := by decide

/-- ASCII digit test, Python regex `\d` restricted to ASCII as `re` uses on
    the patterns in this file's scope (the dataset is ASCII-digit only). -/
def isDigit (c : Nat) : Bool := decide (48 ≤ c ∧ c ≤ 57)

/-- Python regex `\w` on the repertoire modelled here: ASCII letters, digits,
    underscore, and the Latin-1 / Latin-Extended-A / Ohm-pair letters. -/
def isWordChar (c : Nat) : Bool :=
  isDigit c || decide (65 ≤ c ∧ c ≤ 90) || decide (97 ≤ c ∧ c ≤ 122) ||
  decide (c = 95) ||
  decide ((0xC0 ≤ c ∧ c ≤ 0x17F ∧ c ≠ 0xD7 ∧ c ≠ 0xF7) ∨ c = 0x3A9 ∨ c = 0x3C9)

/-- Length of the leading whitespace run. -/
def spacesLen (s : Str) : Nat := (s.takeWhile isPySpace).length

/-- Case-insensitive alternation match at the start of the text: tries the
    alternatives in order (as a regex alternation does) and returns the length
    matched. -/
def matchAltCI (alts : List Str) (s : Str) : Option Nat :=
  alts.findSome? fun alt =>
    if lowerStr (s.take alt.length) = lowerStr alt then some alt.length else none

/-- Attempt to match `\s*(alt1|alt2|...)\s*` at the start of the text,
    returning the total length consumed. -/
def tryWordMatch (alts : List Str) (s : Str) : Option Nat :=
  let k := spacesLen s
  match matchAltCI alts (s.drop k) with
  | none => none
  | some m => some (k + m + spacesLen (s.drop (k + m)))

/-- Fuelled scanner for `re.sub(r"\s*(alt1|...)\s*", "", text)`: at each
    position, a match (leftmost, with the regex's greedy whitespace) is
    deleted and scanning resumes after it. -/
def wordSubAux (alts : List Str) : Nat → Str → Str
  | 0, s => s
  | _ + 1, [] => []
  | fuel + 1, c :: rest =>
    match tryWordMatch alts (c :: rest) with
    | some k => wordSubAux alts fuel ((c :: rest).drop k)
    | none => c :: wordSubAux alts fuel rest

/-- Model of `re.sub(r"\s*(...)\s*", "", text, flags=IGNORECASE)`. -/
def wordSub (alts : List Str) (s : Str) : Str := wordSubAux alts s.length s

/-- The currency alternation of `normalize_number`, in the source's order
    (note `zł` precedes `złotych`, so a match inside `złotych` stops after
    `zł`, exactly as `re` alternation does). -/
def currencyAlts : List Str := [str "PLN", str "zł", str "złotych", str "pln", str "ZŁ"]

/-- The unit-suffix alternation of `normalize_number`, in the source's
    order. -/
def unitAlts : List Str :=
  [str "dni", str "days", str "godzin", str "hours", str "h", str "%"]

/-- Numeric value of an ASCII digit string. -/
def digitsToNat (s : Str) : Nat := s.foldl (fun a c => 10 * a + (c - 48)) 0

/-- Rational denoted by integer digits plus fractional digits (the exact
    value Python's `float()` approximates). -/
def qOfDigits (intd fracd : Str) : ℚ :=
  (digitsToNat intd : ℚ) + (digitsToNat fracd : ℚ) / 10 ^ fracd.length

/-- Word-boundary test after the final `k` of the `k`-suffix pattern. -/
def kBoundary : Str → Bool
  | [] => true
  | d :: _ => !isWordChar d

/-- Does `\s*[kK]\b` match at the start of the text? -/
def kAfter (t : Str) : Bool :=
  match t.drop (spacesLen t) with
  | [] => false
  | c :: t3 => (c == 107 || c == 75) && kBoundary t3

/-- Attempt to match `(\d+(?:[.,]\d+)?)\s*k\b` (ignorecase) anchored at this
    position, returning the numeric value of the captured group; fractional
    part greedy-then-dropped exactly as the regex backtracks. -/
def kMatchAt (s : Str) : Option ℚ :=
  match s with
  | [] => none
  | c0 :: _ =>
    if !isDigit c0 then none
    else
      let intd := s.takeWhile isDigit
      let rest := s.drop intd.length
      let noFrac : Option ℚ := if kAfter rest then some (qOfDigits intd []) else none
      match rest with
      | c :: r2 =>
        if (c = 46 ∨ c = 44) ∧ isDigit (r2.headD 0) then
          let fracd := r2.takeWhile isDigit
          let r3 := r2.drop fracd.length
          if kAfter r3 then some (qOfDigits intd fracd) else noFrac
        else noFrac
      | [] => noFrac

/-- Model of `re.search(r"(\d+(?:[.,]\d+)?)\s*k\b", text, re.IGNORECASE)`:
    leftmost match wins. -/
def kSearch : Str → Option ℚ
  | [] => none
  | c :: rest =>
    match kMatchAt (c :: rest) with
    | some q => some q
    | none => kSearch rest

/-- Fuelled scanner for `re.sub(r"(\d)\s+(\d)", r"\1\2", text)`: a digit, a
    whitespace run, and a digit are replaced by the two digits; scanning
    resumes after the second digit (so "1 2 3" becomes "12 3"). -/
def digitSpaceSubAux : Nat → Str → Str
  | 0, s => s
  | _ + 1, [] => []
  | fuel + 1, c :: rest =>
    if isDigit c then
      let sp := spacesLen rest
      let after := rest.drop sp
      if 0 < sp ∧ isDigit (after.headD 0) then
        c :: after.headD 0 :: digitSpaceSubAux fuel (after.drop 1)
      else c :: digitSpaceSubAux fuel rest
    else c :: digitSpaceSubAux fuel rest

/-- Model of `re.sub(r"(\d)\s+(\d)", r"\1\2", text)`. -/
def digitSpaceSub (s : Str) : Str := digitSpaceSubAux s.length s

/-- Attempt to match `-?\d+(?:[.,]\d+)?` anchored at this position, returning
    the rational value of the matched numeral (after the `,` to `.`
    replacement `normalize_number` performs). -/
def numMatchAt : Str → Option ℚ
  | [] => none
  | c :: rest =>
    if c = 45 ∧ isDigit (rest.headD 0) then (numMatchAt rest).map (fun q => -q)
    else if isDigit c then
      let intd := (c :: rest).takeWhile isDigit
      let rest2 := (c :: rest).drop intd.length
      match rest2 with
      | d :: r2 =>
        if (d = 46 ∨ d = 44) ∧ isDigit (r2.headD 0) then
          some (qOfDigits intd (r2.takeWhile isDigit))
        else some (qOfDigits intd [])
      | [] => some (qOfDigits intd [])
    else none

/-- Model of `re.search(r"-?\d+(?:[.,]\d+)?", text)`: leftmost match wins. -/
def numSearch : Str → Option ℚ
  | [] => none
  | c :: rest =>
    match numMatchAt (c :: rest) with
    | some q => some q
    | none => numSearch rest

/-- Embedding of `normalize_number` from `scripts/evaluate.py`: strip
    currency and unit words, handle the `k` thousands suffix, join
    digit-space-digit groups, drop remaining ASCII spaces, then extract the
    first numeral; Python `float` is idealised as `ℚ`. -/
def normalize_number (s : Str) : Option ℚ :=
  let t1 := wordSub currencyAlts s
  let t2 := wordSub unitAlts t1
  match kSearch t2 with
  | some q => some (q * 1000)
  | none => numSearch ((digitSpaceSub t2).filter (fun c => !(c == 32)))

set_option maxRecDepth 2500

example : normalize_number (str "100 złotych") = some 100 := by with_unfolding_all rfl
example : normalize_number (str "50k") = some 50000 := by with_unfolding_all rfl
example : normalize_number (str "1.2.3k") = some 2300 := by with_unfolding_all rfl
example : normalize_number (str "50 000 PLN") = some 50000 := by with_unfolding_all rfl
example : normalize_number (str "-0,5") = some (-(1/2)) := by with_unfolding_all rfl
example : normalize_number (str "16h30") = some 1630 := by with_unfolding_all rfl
example : normalize_number (str "abc") = none := by with_unfolding_all rfl
example : normalize_number (str "1 2 3") = some 123 := by with_unfolding_all rfl

/-- Attempt to match `(\d{4})-(\d{2})-(\d{2})` anchored at this position,
    returning the whole matched text. -/
def isoMatchAt (s : Str) : Option Str :=
  match s with
  | a :: b :: c :: d :: e :: f :: g :: h :: i :: j :: _ =>
    if isDigit a ∧ isDigit b ∧ isDigit c ∧ isDigit d ∧ e = 45 ∧
        isDigit f ∧ isDigit g ∧ h = 45 ∧ isDigit i ∧ isDigit j then
      some [a, b, c, d, e, f, g, h, i, j]
    else none
  | _ => none

/-- Model of `re.search(r"(\d{4})-(\d{2})-(\d{2})", text)`. -/
def isoSearch : Str → Option Str
  | [] => none
  | c :: rest =>
    match isoMatchAt (c :: rest) with
    | some m => some m
    | none => isoSearch rest

/-- Separator `[./]` of the Polish date pattern. -/
def sepChar (c : Nat) : Bool := c == 46 || c == 47

/-- Four consecutive digits (`\d{4}`) anchored at this position. -/
def fourDigitsAt (s : Str) : Option Str :=
  match s with
  | a :: b :: c :: d :: _ =>
    if isDigit a ∧ isDigit b ∧ isDigit c ∧ isDigit d then some [a, b, c, d] else none
  | _ => none

/-- Two-digit month attempt `(\d\d)[./](\d{4})` anchored here. -/
def monthYear2 (s : Str) : Option (Str × Str) :=
  match s with
  | m1 :: m2 :: p :: rest =>
    if isDigit m1 ∧ isDigit m2 ∧ sepChar p then
      (fourDigitsAt rest).map (fun y => ([m1, m2], y))
    else none
  | _ => none

/-- One-digit month attempt `(\d)[./](\d{4})` anchored here. -/
def monthYear1 (s : Str) : Option (Str × Str) :=
  match s with
  | m1 :: p :: rest =>
    if isDigit m1 ∧ sepChar p then (fourDigitsAt rest).map (fun y => ([m1], y))
    else none
  | _ => none

/-- Month-then-year part `(\d{1,2})[./](\d{4})` anchored here: as the greedy
    regex does, a two-digit month is tried before a one-digit month. -/
def monthYearAt (s : Str) : Option (Str × Str) :=
  monthYear2 s <|> monthYear1 s

/-- Two-digit day attempt of the Polish date pattern anchored here. -/
def polishDay2 (s : Str) : Option (Str × Str × Str) :=
  match s with
  | d1 :: d2 :: p :: rest =>
    if isDigit d1 ∧ isDigit d2 ∧ sepChar p then
      (monthYearAt rest).map (fun my => ([d1, d2], my.1, my.2))
    else none
  | _ => none

/-- One-digit day attempt of the Polish date pattern anchored here. -/
def polishDay1 (s : Str) : Option (Str × Str × Str) :=
  match s with
  | d1 :: p :: rest =>
    if isDigit d1 ∧ sepChar p then
      (monthYearAt rest).map (fun my => ([d1], my.1, my.2))
    else none
  | _ => none

/-- Attempt to match `(\d{1,2})[./](\d{1,2})[./](\d{4})` anchored at this
    position, returning `(day, month, year)` as digit strings; day group
    greedy before month group, as the regex backtracks. -/
def polishMatchAt (s : Str) : Option (Str × Str × Str) :=
  polishDay2 s <|> polishDay1 s

/-- Model of `re.search(r"(\d{1,2})[./](\d{1,2})[./](\d{4})", text)`. -/
def polishSearch : Str → Option (Str × Str × Str)
  | [] => none
  | c :: rest => polishMatchAt (c :: rest) <|> polishSearch rest

/-- Attempt to match `(\d{4})-(\d{2})` anchored at this position, returning
    the whole matched text. -/
def ymMatchAt (s : Str) : Option Str :=
  match s with
  | a :: b :: c :: d :: e :: f :: g :: _ =>
    if isDigit a ∧ isDigit b ∧ isDigit c ∧ isDigit d ∧ e = 45 ∧
        isDigit f ∧ isDigit g then
      some [a, b, c, d, e, f, g]
    else none
  | _ => none

/-- Model of `re.search(r"(\d{4})-(\d{2})", text)`. -/
def ymSearch : Str → Option Str
  | [] => none
  | c :: rest =>
    match ymMatchAt (c :: rest) with
    | some m => some m
    | none => ymSearch rest

/-- Python `str.zfill(2)`: left-pad with ASCII zeros to length 2. -/
def zfill2 (s : Str) : Str :=
  if 2 ≤ s.length then s else List.replicate (2 - s.length) 48 ++ s

/-- Embedding of `normalize_date` from `scripts/evaluate.py`: first an ISO
    `YYYY-MM-DD` search, then the Polish `DD.MM.YYYY` / `DD/MM/YYYY` form
    (rebuilt as `YYYY-MM-DD` with zero-padding), then a bare `YYYY-MM`
    search; `None` when nothing matches. -/
def normalize_date (s : Str) : Option Str :=
  match isoSearch s with
  | some m => some m
  | none =>
    match polishSearch s with
    | some (day, month, year) =>
      some (year ++ [45] ++ zfill2 month ++ [45] ++ zfill2 day)
    | none => ymSearch s

example : normalize_date (str "2023-07") = some (str "2023-07") := by decide
example : normalize_date (str "123.4.2000") = some (str "2000-04-23") := by decide
example : normalize_date (str "x 2020-01-01 y 26.07.2023") = some (str "2020-01-01") := by
  decide
example : normalize_date (str "7/3/2023") = some (str "2023-03-07") := by decide
example : normalize_date (str "26.07.2023") = some (str "2023-07-26") := by decide
example : normalize_date (str "brak") = none := by decide

/-- Python's substring operator `needle in hay`, as a scanner: true when the
    needle is a contiguous substring of the haystack (always true for the
    empty needle). -/
def strContains : Str → Str → Bool
  | hay, needle =>
    List.isPrefixOf needle hay ||
      match hay with
      | [] => false
      | _ :: rest => strContains rest needle

example : strContains (str "ala ma kota") (str "a ma k") = true := by decide
example : strContains (str "ala ma kota") (str "kot x") = false := by decide
example : strContains (str "abc") [] = true := by decide

/-- The date-comparison and containment fall-through tail of
    `check_exact_match` (the code after the numeric comparison): dates must
    be truthy (non-`None`, non-empty) and equal for 0.5; otherwise a
    normalized-containment check with minimum length gives 0.5; else 0.0. -/
def cemTail (submitted expected submitted_norm expected_norm : Str) : ℚ :=
  if (normalize_date submitted).getD [] ≠ [] ∧ (normalize_date expected).getD [] ≠ [] ∧
      normalize_date submitted = normalize_date expected then 1/2
  else if strContains submitted_norm expected_norm ∧ 5 < expected_norm.length then 1/2
  else 0

/-- Embedding of `check_exact_match` from `scripts/evaluate.py`: 1.0 for a
    normalized match against the expected answer or (when the variant list is
    truthy) any variant; else 0.5 when both sides parse as numbers within
    `max(0.01, |expected| * 0.01)`; else the date / containment tail. -/
def check_exact_match (submitted expected : Str) (variants : Option (List Str)) : ℚ :=
  if normalize_text submitted = normalize_text expected then 1
  else if (variants.getD []).any (fun v => normalize_text v == normalize_text submitted) then 1
  else
    match normalize_number submitted, normalize_number expected with
    | some sNum, some eNum =>
      if |sNum - eNum| < max (1/100 : ℚ) (|eNum| * (1/100)) then 1/2
      else cemTail submitted expected (normalize_text submitted) (normalize_text expected)
    | _, _ => cemTail submitted expected (normalize_text submitted) (normalize_text expected)

example : check_exact_match (str "-995") (str "-1000") none = 1/2 := by
  with_unfolding_all rfl
example : check_exact_match (str "46,5") (str "46.5") none = 1/2 := by
  with_unfolding_all rfl
example : check_exact_match (str "Maciej Boryna") (str "maciej  boryna") none = 1 := by
  with_unfolding_all rfl
example : check_exact_match (str "x") (str "y") (some [str "X "]) = 1 := by
  with_unfolding_all rfl
example : check_exact_match (str "abc") (str "def") none = 0 := by
  with_unfolding_all rfl
example : check_exact_match (str "w dniu 2023-07-26 r.") (str "26.07.2023") none = 1/2 := by
  with_unfolding_all rfl
example : check_exact_match (str "to jest długa odpowiedź") (str "długa odp") none = 1/2 := by
  with_unfolding_all rfl
example : check_exact_match (str "to jest długa odpowiedź") (str "krótka") none = 0 := by
  with_unfolding_all rfl
example : check_exact_match (str "to jest długa odpowiedź") (str "długa odpowiedź") none
    = 1/2 := by with_unfolding_all rfl

/-- The fourteen negative-indicator substrings of `check_negative_question`,
    in the source's order. -/
def negative_indicators : List Str :=
  [str "nie znaleziono", str "brak informacji", str "nie ma danych",
   str "nie wiem", str "nie można ustalić", str "brak danych",
   str "nie dotyczy", str "n/a", str "not found", str "no information",
   str "unknown", str "nie występuje", str "brak", str "nie istnieje"]

/-- Embedding of `check_negative_question` from `scripts/evaluate.py`: true
    for empty / whitespace-only answers, answers whose lowercased stripped
    form contains a negative indicator, and answers shorter than 50
    characters containing a question mark. -/
def check_negative_question (submitted : Str) : Bool :=
  if submitted = [] ∨ pyStrip submitted = [] then true
  else if negative_indicators.any
      (fun ind => strContains (pyStrip (lowerStr submitted)) ind) then true
  else if strContains submitted [63] ∧ submitted.length < 50 then true
  else false

example : check_negative_question (str "   ") = true := by decide
example : check_negative_question (str "Brak danych w dokumentach.") = true := by decide
example : check_negative_question (str "Nie wiem?") = true := by decide
example : check_negative_question (str "42") = false := by decide
example : check_negative_question
    (str "czy to jest bardzo bardzo bardzo długie pytanie o czterdziestu dziewię?") =
    false := by decide

/-- Attempt to match `doc_\d+` anchored at this position, returning the
    match and the remaining text after it. -/
def docIdAt (s : Str) : Option (Str × Str) :=
  match s with
  | d :: o :: c :: u :: rest =>
    if d = 100 ∧ o = 111 ∧ c = 99 ∧ u = 95 ∧ isDigit (rest.headD 0) then
      let digits := rest.takeWhile isDigit
      some ([100, 111, 99, 95] ++ digits, rest.drop digits.length)
    else none
  | _ => none

/-- Fuelled scanner for `re.findall(r"doc_\d+", text)`: non-overlapping
    leftmost matches with greedy digit runs. -/
def findDocIdsAux : Nat → Str → List Str
  | 0, _ => []
  | _ + 1, [] => []
  | fuel + 1, c :: rest =>
    match docIdAt (c :: rest) with
    | some (m, r) => m :: findDocIdsAux fuel r
    | none => findDocIdsAux fuel rest

/-- Model of `re.findall(r"doc_\d+", text)`. -/
def findDocIds (s : Str) : List Str := findDocIdsAux s.length s

example : findDocIds (str "doc_001, doc_2doc_31 i doc") =
    [str "doc_001", str "doc_2", str "doc_31"] := by decide

/-- Result record of `check_temporal_filter`. -/
structure TemporalCheck where
  correct : List Str
  missing : List Str
  extra : List Str
  precision : ℚ
  «recall» : ℚ
  f1 : ℚ
  pass : Bool
  deriving Repr, DecidableEq

/-- Embedding of `check_temporal_filter` from `scripts/evaluate.py`: extract
    `doc_\d+` identifiers from the lowercased submission, compare them as
    sets (Python `set`, modelled as deduplicated lists) against the expected
    ids, and compute precision / recall / F1 with zero fallbacks for the
    empty denominators; pass means recall at least 0.8. The helper
    definitions name the intermediate values of its body. -/
def tfFound (submitted : Str) : List Str := (findDocIds (lowerStr submitted)).dedup

/-- The `correct` set of `check_temporal_filter` (intersection as a list). -/
def tfCorrect (submitted : Str) (expected_doc_ids : List Str) : List Str :=
  (tfFound submitted).filter (fun x => expected_doc_ids.dedup.contains x)

/-- The `precision` value of `check_temporal_filter`. -/
def tfPrecision (submitted : Str) (expected_doc_ids : List Str) : ℚ :=
  if tfFound submitted ≠ [] then
    ((tfCorrect submitted expected_doc_ids).length : ℚ) / (tfFound submitted).length
  else 0

/-- The `recall` value of `check_temporal_filter`. -/
def tfRecall (submitted : Str) (expected_doc_ids : List Str) : ℚ :=
  if expected_doc_ids.dedup ≠ [] then
    ((tfCorrect submitted expected_doc_ids).length : ℚ) / expected_doc_ids.dedup.length
  else 0

/-- Embedding of `check_temporal_filter` from `scripts/evaluate.py`
    (continued): assembled record. -/
def check_temporal_filter (submitted : Str) (expected_doc_ids : List Str) : TemporalCheck :=
  { correct := tfCorrect submitted expected_doc_ids,
    missing := expected_doc_ids.dedup.filter (fun x => !(tfFound submitted).contains x),
    extra := (tfFound submitted).filter (fun x => !expected_doc_ids.dedup.contains x),
    precision := tfPrecision submitted expected_doc_ids,
    «recall» := tfRecall submitted expected_doc_ids,
    f1 :=
      if 0 < tfPrecision submitted expected_doc_ids + tfRecall submitted expected_doc_ids then
        2 * tfPrecision submitted expected_doc_ids * tfRecall submitted expected_doc_ids /
          (tfPrecision submitted expected_doc_ids + tfRecall submitted expected_doc_ids)
      else 0,
    pass := decide ((4/5 : ℚ) ≤ tfRecall submitted expected_doc_ids) }

example :
    (check_temporal_filter (str "DOC_1 doc_2 doc_9") [str "doc_1", str "doc_2", str "doc_3"])
      = { correct := [str "doc_1", str "doc_2"], missing := [str "doc_3"],
          extra := [str "doc_9"], precision := 2/3, «recall» := 2/3, f1 := 2/3,
          pass := false } := by with_unfolding_all rfl
example : (check_temporal_filter (str "nic") []).«recall» = 0 := by with_unfolding_all rfl

/-- Round a rational to the nearest integer with ties to even, the rounding
    of Python's `round` idealised to exact arithmetic. -/
def roundHalfEven (q : ℚ) : ℤ :=
  let f := ⌊q⌋
  let r := q - f
  if r < 1/2 then f
  else if 1/2 < r then f + 1
  else if f % 2 = 0 then f else f + 1

/-- Python `round(x, 1)` idealised over ℚ. -/
def pyRound1 (q : ℚ) : ℚ := (roundHalfEven (10 * q) : ℚ) / 10

/-- A ground-truth question object: the JSON keys `evaluate_submissions`
    reads, with Python's `.get` defaults for absent keys (`Option` where the
    code distinguishes absence, the default value otherwise). -/
structure Question where
  id : Str
  question_pl : Option Str := none
  question_en : Option Str := none
  expected_answer : Str := []
  answer_variants : List Str := []
  rubric_id : Option Str := none
  expected_behavior : Str := []
  expected_document_ids : List Str := []
  deriving Repr, DecidableEq

/-- The ground-truth JSON document: the question lists
    `evaluate_submissions` reads, an absent category being the empty list
    exactly as `ground_truth.get(category, [])` yields. -/
structure GroundTruth where
  exact_match_questions : List Question := []
  multi_document_synthesis_questions : List Question := []
  ocr_questions : List Question := []
  multi_hop_ocr_questions : List Question := []
  database_questions : List Question := []
  multi_hop_db_doc_questions : List Question := []
  qualitative_questions : List Question := []
  negative_questions : List Question := []
  temporal_filter_questions : List Question := []
  deriving Repr

/-- The submissions JSON document: a mapping from question id to answer,
    modelled as an association list with unique keys looked up by first
    occurrence. -/
abbrev Submissions := List (Str × Str)

/-- Python `q.get("question_pl", q.get("question_en", ""))`. -/
def questionTextOf (q : Question) : Str :=
  (q.question_pl).getD ((q.question_en).getD [])

/-- Python `q.get("question_pl", "")[:80] + "..."` as built for scored and
    temporal entries. -/
def questionPl80 (q : Question) : Str :=
  ((q.question_pl).getD []).take 80 ++ str "..."

/-- An entry of the `auto_scored` result list (the `variants` key is present
    for the six auto-score categories and absent for negative questions). -/
structure AutoEntry where
  id : Str
  category : Str
  question : Str
  expected : Str
  submitted : Str
  variants : Option (List Str)
  score : ℚ
  deriving Repr, DecidableEq

/-- An entry of the `human_review` result list (`reference_answer` is set by
    the long-answer branch, `rubric_id` by the qualitative branch). -/
structure ReviewEntry where
  id : Str
  category : Str
  question : Str
  rubric_id : Option Str := none
  reference_answer : Option Str := none
  submitted : Str
  deriving Repr, DecidableEq

/-- An entry of the `not_answered` result list. -/
structure NotAnsweredEntry where
  id : Str
  category : Str
  question : Str
  deriving Repr, DecidableEq

/-- An entry of the `temporal` result list: the `check_temporal_filter`
    record with the id / question / submitted keys the loop adds. -/
structure TemporalEntry where
  result : TemporalCheck
  id : Str
  question : Str
  submitted : Str
  deriving Repr, DecidableEq

/-- The `summary` statistics record. -/
structure Summary where
  auto_scored_total_score : ℚ
  auto_scored_max_score : Nat
  auto_scored_percentage : ℚ
  full_credit_count : Nat
  partial_credit_count : Nat
  wrong_count : Nat
  temporal_pass : Nat
  temporal_total : Nat
  human_review_count : Nat
  not_answered_count : Nat
  deriving Repr, DecidableEq

/-- The full result record of `evaluate_submissions`. -/
structure EvalResults where
  auto_scored : List AutoEntry
  human_review : List ReviewEntry
  temporal : List TemporalEntry
  not_answered : List NotAnsweredEntry
  summary : Summary
  deriving Repr

/-- Where one iteration of the auto-score-category loop (or the negative
    loop) of `evaluate_submissions` sends its question. -/
inductive Routed where
  | review (e : ReviewEntry)
  | notAnswered (e : NotAnsweredEntry)
  | scored (e : AutoEntry)
  deriving Repr, DecidableEq

/-- Projection to a scored entry. -/
def Routed.scoredEntry : Routed → Option AutoEntry
  | .scored e => some e
  | _ => none

/-- Projection to a human-review entry. -/
def Routed.reviewEntry : Routed → Option ReviewEntry
  | .review e => some e
  | _ => none

/-- Projection to a not-answered entry. -/
def Routed.naEntry : Routed → Option NotAnsweredEntry
  | .notAnswered e => some e
  | _ => none

/-- The `AUTO_SCORE_MAX_LENGTH` constant of `evaluate_submissions`. -/
def AUTO_SCORE_MAX_LENGTH : Nat := 80

/-- The `auto_score_categories` list of `evaluate_submissions`, in the
    source's order. -/
def auto_score_categories : List Str :=
  [str "exact_match_questions", str "multi_document_synthesis_questions",
   str "ocr_questions", str "multi_hop_ocr_questions",
   str "database_questions", str "multi_hop_db_doc_questions"]

/-- Python `ground_truth.get(category, [])` for the category names the
    evaluator iterates. -/
def categoryQuestions (gt : GroundTruth) (cat : Str) : List Question :=
  if cat = str "exact_match_questions" then gt.exact_match_questions
  else if cat = str "multi_document_synthesis_questions" then
    gt.multi_document_synthesis_questions
  else if cat = str "ocr_questions" then gt.ocr_questions
  else if cat = str "multi_hop_ocr_questions" then gt.multi_hop_ocr_questions
  else if cat = str "database_questions" then gt.database_questions
  else if cat = str "multi_hop_db_doc_questions" then gt.multi_hop_db_doc_questions
  else []

/-- One iteration of the auto-score-category loop of
    `evaluate_submissions`: expected answers longer than
    `AUTO_SCORE_MAX_LENGTH` go to human review, unanswered questions to
    not-answered, and the rest are scored with `check_exact_match`. -/
def routeAutoQuestion (submissions : Submissions) (category : Str) (q : Question) :
    Routed :=
  if AUTO_SCORE_MAX_LENGTH < q.expected_answer.length then
    .review { id := q.id, category := category, question := questionTextOf q,
              reference_answer := some q.expected_answer,
              submitted := (List.lookup q.id submissions).getD (str "[NOT ANSWERED]") }
  else
    match List.lookup q.id submissions with
    | none =>
      .notAnswered { id := q.id, category := category, question := questionTextOf q }
    | some submitted =>
      .scored { id := q.id, category := category, question := questionPl80 q,
                expected := q.expected_answer, submitted := submitted,
                variants := some q.answer_variants,
                score := check_exact_match submitted q.expected_answer
                  (some q.answer_variants) }

/-- One iteration of the negative-question loop of `evaluate_submissions`. -/
def routeNegativeQuestion (submissions : Submissions) (q : Question) : Routed :=
  match List.lookup q.id submissions with
  | none =>
    .notAnswered { id := q.id, category := str "negative_questions",
                   question := questionTextOf q }
  | some submitted =>
    .scored { id := q.id, category := str "negative_questions",
              question := questionPl80 q,
              expected := str "[Should indicate: " ++ q.expected_behavior ++ str "]",
              submitted := submitted, variants := none,
              score := if check_negative_question submitted then 1 else 0 }

/-- One iteration of the temporal-filter loop of `evaluate_submissions`. -/
def routeTemporalQuestion (submissions : Submissions) (q : Question) :
    NotAnsweredEntry ⊕ TemporalEntry :=
  match List.lookup q.id submissions with
  | none =>
    .inl { id := q.id, category := str "temporal_filter_questions",
           question := questionTextOf q }
  | some submitted =>
    .inr { result := check_temporal_filter submitted q.expected_document_ids,
           id := q.id, question := questionPl80 q, submitted := submitted }

/-- One iteration of the qualitative-question loop of
    `evaluate_submissions`: always a human-review entry. -/
def qualitativeReviewEntry (submissions : Submissions) (q : Question) : ReviewEntry :=
  { id := q.id, category := str "qualitative", question := questionTextOf q,
    rubric_id := q.rubric_id,
    submitted := (List.lookup q.id submissions).getD (str "[NOT ANSWERED]") }

/-- The summary-statistics block at the end of `evaluate_submissions`. -/
def summaryOf (auto : List AutoEntry) (temporal : List TemporalEntry)
    (hr : List ReviewEntry) (na : List NotAnsweredEntry) : Summary :=
  { auto_scored_total_score := (auto.map (fun r => r.score)).sum,
    auto_scored_max_score := auto.length,
    auto_scored_percentage :=
      if auto.length ≠ 0 then
        pyRound1 (100 * (auto.map (fun r => r.score)).sum / auto.length)
      else 0,
    full_credit_count := (auto.filter (fun r => decide (r.score = 1))).length,
    partial_credit_count := (auto.filter (fun r => decide (r.score = 1/2))).length,
    wrong_count := (auto.filter (fun r => decide (r.score = 0))).length,
    temporal_pass := (temporal.filter (fun r => r.result.pass)).length,
    temporal_total := temporal.length,
    human_review_count := hr.length,
    not_answered_count := na.length }

/-- The routed auto-score-category phase of `evaluate_submissions`: the six
    categories in order, each question routed in list order. -/
def routedAutoPhase (gt : GroundTruth) (subs : Submissions) : List Routed :=
  auto_score_categories.flatMap (fun cat =>
    (categoryQuestions gt cat).map (routeAutoQuestion subs cat))

/-- The routed negative-question phase of `evaluate_submissions`. -/
def routedNegPhase (gt : GroundTruth) (subs : Submissions) : List Routed :=
  gt.negative_questions.map (routeNegativeQuestion subs)

/-- The routed temporal-filter phase of `evaluate_submissions`. -/
def routedTempPhase (gt : GroundTruth) (subs : Submissions) :
    List (NotAnsweredEntry ⊕ TemporalEntry) :=
  gt.temporal_filter_questions.map (routeTemporalQuestion subs)

/-- The `auto_scored` result list of `evaluate_submissions`, in the source's
    append order. -/
def autoScoredList (gt : GroundTruth) (subs : Submissions) : List AutoEntry :=
  (routedAutoPhase gt subs).filterMap Routed.scoredEntry ++
    (routedNegPhase gt subs).filterMap Routed.scoredEntry

/-- The `human_review` result list of `evaluate_submissions`. -/
def humanReviewList (gt : GroundTruth) (subs : Submissions) : List ReviewEntry :=
  (routedAutoPhase gt subs).filterMap Routed.reviewEntry ++
    gt.qualitative_questions.map (qualitativeReviewEntry subs)

/-- The `temporal` result list of `evaluate_submissions`. -/
def temporalList (gt : GroundTruth) (subs : Submissions) : List TemporalEntry :=
  (routedTempPhase gt subs).filterMap (fun r => r.getRight?)

/-- The `not_answered` result list of `evaluate_submissions`. -/
def notAnsweredList (gt : GroundTruth) (subs : Submissions) : List NotAnsweredEntry :=
  (routedAutoPhase gt subs).filterMap Routed.naEntry ++
    (routedNegPhase gt subs).filterMap Routed.naEntry ++
    (routedTempPhase gt subs).filterMap (fun r => r.getLeft?)

/-- Embedding of `evaluate_submissions` from `scripts/evaluate.py`
    (continued): results assembled from the phase lists above. -/
def evaluate_submissions (ground_truth : GroundTruth) (submissions : Submissions) :
    EvalResults :=
  { auto_scored := autoScoredList ground_truth submissions,
    human_review := humanReviewList ground_truth submissions,
    temporal := temporalList ground_truth submissions,
    not_answered := notAnsweredList ground_truth submissions,
    summary := summaryOf (autoScoredList ground_truth submissions)
      (temporalList ground_truth submissions) (humanReviewList ground_truth submissions)
      (notAnsweredList ground_truth submissions) }

/-- A small concrete ground truth exercising every routing branch; used by
    the witness theorems below. -/
def gtEx : GroundTruth :=
  { exact_match_questions :=
      [{ id := str "q001", question_pl := some (str "Kiedy?"),
         expected_answer := str "2023-07-26", answer_variants := [str "26.07.2023"] },
       { id := str "q002", question_pl := some (str "Opisz"),
         expected_answer := List.replicate 81 120 },
       { id := str "q003", question_en := some (str "How many?"),
         expected_answer := str "45" }],
    database_questions :=
      [{ id := str "q005", question_pl := some (str "Ile?"),
         expected_answer := str "100" }],
    qualitative_questions :=
      [{ id := str "q010", question_pl := some (str "Oceń"),
         rubric_id := some (str "r1") }],
    negative_questions :=
      [{ id := str "q020", question_pl := some (str "Czy X?"),
         expected_behavior := str "not found" },
       { id := str "q021", question_pl := some (str "Czy Y?"),
         expected_behavior := str "not found" }],
    temporal_filter_questions :=
      [{ id := str "q030", question_pl := some (str "Które?"),
         expected_document_ids := [str "doc_1", str "doc_2"] },
       { id := str "q031", question_pl := some (str "Które 2?"),
         expected_document_ids := [str "doc_3"] }] }

/-- Concrete submissions paired with `gtEx`. -/
def subsEx : Submissions :=
  [(str "q001", str "26.07.2023"), (str "q002", str "whatever"),
   (str "q005", str "99,5"), (str "q010", str "odp"),
   (str "q020", str "brak"), (str "q030", str "doc_1 i doc_7")]

example : (evaluate_submissions gtEx subsEx).summary =
    { auto_scored_total_score := 5/2, auto_scored_max_score := 3,
      auto_scored_percentage := 833/10, full_credit_count := 2,
      partial_credit_count := 1, wrong_count := 0, temporal_pass := 0,
      temporal_total := 1, human_review_count := 2, not_answered_count := 3 } := by
  with_unfolding_all rfl

example : ((evaluate_submissions gtEx subsEx).auto_scored.map (fun e => (e.id, e.score))) =
    [(str "q001", 1), (str "q005", 1/2), (str "q020", 1)] := by with_unfolding_all rfl

example : ((evaluate_submissions gtEx subsEx).not_answered.map (fun e => e.id)) =
    [str "q003", str "q021", str "q031"] := by with_unfolding_all rfl

example : ((evaluate_submissions gtEx subsEx).human_review.map (fun e => e.id)) =
    [str "q002", str "q010"] := by with_unfolding_all rfl

example :
    ((evaluate_submissions gtEx subsEx).temporal.map
      (fun e => (e.id, e.result.pass, e.result.«recall»))) =
    [(str "q030", false, 1/2)] := by with_unfolding_all rfl

/-- A JSON scalar stored in a database row. -/
inductive JVal where
  | null
  | bool (b : Bool)
  | num (q : ℚ)
  | jstr (s : Str)
  deriving Repr, DecidableEq

/-- A JSON row object: an association list of column name to value. -/
abbrev Row := List (Str × JVal)

/-- A database row as inserted: one cell per chosen column, `none` being SQL
    NULL (a column the JSON row lacks). -/
abbrev SqlRow := List (Option JVal)

/-- The SQLite database state, table name to stored rows. -/
abbrev DBState := Str → List SqlRow

/-- The `data` JSON document handed to `insert_data`. -/
abbrev DataDoc := List (Str × List Row)

/-- The fixed table order of `insert_data` / `create_schema` in
    `scripts/generate_database.py`. -/
def table_order : List Str :=
  [str "employees", str "clients", str "contacts", str "projects",
   str "project_assignments", str "time_entries", str "invoices", str "expenses"]

/-- Python `[row.get(col) for col in columns]`: one cell per column, `None`
    for a column the row lacks. -/
def rowValues (columns : List Str) (row : Row) : SqlRow :=
  columns.map (fun c => List.lookup c row)

/-- Append freshly inserted rows to one table of the database. -/
def insertTableRows (db : DBState) (t : Str) (newRows : List SqlRow) : DBState :=
  fun t2 => if t2 = t then db t2 ++ newRows else db t2

/-- One iteration of the `insert_data` table loop: skip a table absent from
    the data or with an empty row list; otherwise take the column names from
    the first row, insert one database row per JSON row, and record the
    row-list length in the counts. -/
def insertTableStep (data : DataDoc) (acc : DBState × List (Str × Nat)) (t : Str) :
    DBState × List (Str × Nat) :=
  match List.lookup t data with
  | none => acc
  | some [] => acc
  | some (r0 :: rs) =>
    (insertTableRows acc.1 t ((r0 :: rs).map (rowValues (r0.map Prod.fst))),
     acc.2 ++ [(t, (r0 :: rs).length)])

/-- Embedding of `insert_data` from `scripts/generate_database.py`. -/
def insert_data (db : DBState) (data : DataDoc) : DBState × List (Str × Nat) :=
  table_order.foldl (insertTableStep data) (db, [])

/-- Embedding of `verify_database` from `scripts/generate_database.py`:
    true exactly when every table listed in the expected counts has that many
    stored rows. -/
def verify_database (db : DBState) (expected_counts : List (Str × Nat)) : Bool :=
  expected_counts.all (fun p => (db p.1).length == p.2)

/-- An empty database, as `main` creates before inserting. -/
def emptyDB : DBState := fun _ => []

/-- The rows `insert_data` stores for one table of the data (empty for a
    skipped table). -/
def tableRows (data : DataDoc) (t : Str) : List SqlRow :=
  match List.lookup t data with
  | none => []
  | some [] => []
  | some (r0 :: rs) => (r0 :: rs).map (rowValues (r0.map Prod.fst))

/-- The counts entry `insert_data` records for one table of the data. -/
def tableCount (data : DataDoc) (t : Str) : Option (Str × Nat) :=
  match List.lookup t data with
  | none => none
  | some [] => none
  | some (r0 :: rs) => some (t, (r0 :: rs).length)

/-- A tiny data document exercising present, empty and absent tables and a
    row with a missing column; used by the witness theorems below. -/
def dataEx : DataDoc :=
  [(str "clients",
    [[(str "id", JVal.num 1), (str "name", JVal.jstr (str "Acme"))],
     [(str "id", JVal.num 2)]]),
   (str "invoices", []),
   (str "widgets", [[(str "id", JVal.num 9)]]),
   (str "employees", [[(str "id", JVal.num 7)]])]

example : (insert_data emptyDB dataEx).2 =
    [(str "employees", 1), (str "clients", 2)] := by with_unfolding_all rfl
example : (insert_data emptyDB dataEx).1 (str "clients") =
    [[some (JVal.num 1), some (JVal.jstr (str "Acme"))],
     [some (JVal.num 2), none]] := by with_unfolding_all rfl
example : (insert_data emptyDB dataEx).1 (str "widgets") = [] := by
  with_unfolding_all rfl
example : verify_database (insert_data emptyDB dataEx).1 (insert_data emptyDB dataEx).2 =
    true := by with_unfolding_all rfl

section ScoreRange

lemma cemTail_eq_zero_or_half (a b c d : Str) :
    cemTail a b c d = 0 ∨ cemTail a b c d = 1/2 := by
  unfold cemTail
  split_ifs <;> simp

lemma check_exact_match_trichotomy (s e : Str) (v : Option (List Str)) :
    check_exact_match s e v = 0 ∨ check_exact_match s e v = 1/2 ∨
      check_exact_match s e v = 1 := by
  unfold check_exact_match
  split_ifs with h1 h2
  · tauto
  · tauto
  · rcases hs : normalize_number s with _ | a <;>
      rcases he : normalize_number e with _ | b <;> simp only []
    · rcases cemTail_eq_zero_or_half s e (normalize_text s) (normalize_text e) with h | h <;>
        tauto
    · rcases cemTail_eq_zero_or_half s e (normalize_text s) (normalize_text e) with h | h <;>
        tauto
    · rcases cemTail_eq_zero_or_half s e (normalize_text s) (normalize_text e) with h | h <;>
        tauto
    · split_ifs
      · tauto
      · rcases cemTail_eq_zero_or_half s e (normalize_text s) (normalize_text e) with h | h <;>
          tauto

end ScoreRange

section ClaimOne

lemma routeAuto_scored_trichotomy (subs : Submissions) (cat : Str) (q : Question)
    (e : AutoEntry) (h : (routeAutoQuestion subs cat q).scoredEntry = some e) :
    e.score = 0 ∨ e.score = 1/2 ∨ e.score = 1 := by
  unfold routeAutoQuestion at h
  split_ifs at h with h80
  · simp [Routed.scoredEntry] at h
  · rcases hl : List.lookup q.id subs with _ | a <;> rw [hl] at h
    · simp [Routed.scoredEntry] at h
    · simp only [Routed.scoredEntry, Option.some.injEq] at h
      subst h
      exact check_exact_match_trichotomy a q.expected_answer (some q.answer_variants)

lemma routeNeg_scored_form (subs : Submissions) (q : Question) (e : AutoEntry)
    (h : (routeNegativeQuestion subs q).scoredEntry = some e) :
    e.score = (if check_negative_question e.submitted then (1 : ℚ) else 0) := by
  unfold routeNegativeQuestion at h
  rcases hl : List.lookup q.id subs with _ | a <;> rw [hl] at h
  · simp [Routed.scoredEntry] at h
  · simp only [Routed.scoredEntry, Option.some.injEq] at h
    subst h
    rfl

lemma routeNeg_scored_trichotomy (subs : Submissions) (q : Question) (e : AutoEntry)
    (h : (routeNegativeQuestion subs q).scoredEntry = some e) :
    e.score = 0 ∨ e.score = 1/2 ∨ e.score = 1 := by
  rw [routeNeg_scored_form subs q e h]
  split_ifs <;> tauto

lemma autoScoredList_trichotomy (gt : GroundTruth) (subs : Submissions) :
    ∀ e ∈ autoScoredList gt subs, e.score = 0 ∨ e.score = 1/2 ∨ e.score = 1 := by
  intro e he
  rw [autoScoredList, List.mem_append] at he
  rcases he with he | he
  · rw [List.mem_filterMap] at he
    obtain ⟨r, hr, hre⟩ := he
    rw [routedAutoPhase, List.mem_flatMap] at hr
    obtain ⟨cat, _, hr⟩ := hr
    rw [List.mem_map] at hr
    obtain ⟨q, _, hq⟩ := hr
    exact routeAuto_scored_trichotomy subs cat q e (hq ▸ hre)
  · rw [List.mem_filterMap] at he
    obtain ⟨r, hr, hre⟩ := he
    rw [routedNegPhase, List.mem_map] at hr
    obtain ⟨q, _, hq⟩ := hr
    exact routeNeg_scored_trichotomy subs q e (hq ▸ hre)

end ClaimOne

/-- Claim C1: `check_exact_match` always returns one of 0.0, 0.5, 1.0, and
    every entry `evaluate_submissions` places in `auto_scored` — those scored
    by `check_exact_match` as well as negative questions scored 1.0 / 0.0 via
    `check_negative_question` — carries a score in that set. -/
theorem check_exact_match_and_auto_scores_range :
    (∀ submitted expected variants,
        check_exact_match submitted expected variants = 0 ∨
        check_exact_match submitted expected variants = 1/2 ∨
        check_exact_match submitted expected variants = 1) ∧
    (∀ gt subs, ∀ e ∈ (evaluate_submissions gt subs).auto_scored,
        e.score = 0 ∨ e.score = 1/2 ∨ e.score = 1) ∧
    (∀ subs q e, (routeNegativeQuestion subs q).scoredEntry = some e →
        e.score = (if check_negative_question e.submitted then (1 : ℚ) else 0)) :=
  ⟨check_exact_match_trichotomy,
   fun gt subs => autoScoredList_trichotomy gt subs,
   routeNeg_scored_form⟩

/-- A sample negative-question entry of the `gtEx` evaluation. -/
def c1SampleEntry : AutoEntry :=
  { id := str "q020", category := str "negative_questions",
    question := str "Czy X?" ++ str "...",
    expected := str "[Should indicate: not found]", submitted := str "brak",
    variants := none, score := 1 }

/-- Witness for C1 at concrete inputs. -/
theorem check_exact_match_and_auto_scores_range_witness :
    (c1SampleEntry.score = 0 ∨ c1SampleEntry.score = 1/2 ∨ c1SampleEntry.score = 1) ∧
    (c1SampleEntry.score =
      (if check_negative_question c1SampleEntry.submitted then (1 : ℚ) else 0)) :=
  ⟨check_exact_match_and_auto_scores_range.2.1 gtEx subsEx c1SampleEntry
      (by with_unfolding_all decide),
   check_exact_match_and_auto_scores_range.2.2 subsEx
      { id := str "q020", question_pl := some (str "Czy X?"),
        expected_behavior := str "not found" }
      c1SampleEntry (by with_unfolding_all decide)⟩

/-- The full-credit condition of `check_exact_match`: normalized equality
    with the expected answer or with some listed variant. -/
def cemFullCredit (s e : Str) (v : Option (List Str)) : Prop :=
  normalize_text s = normalize_text e ∨
    ∃ var ∈ v.getD [], normalize_text var = normalize_text s

/-- The numeric partial-credit condition of `check_exact_match`: both sides
    parse as numbers within `max(0.01, |expected| * 0.01)`. -/
def cemNumericClose (s e : Str) : Prop :=
  ∃ a b, normalize_number s = some a ∧ normalize_number e = some b ∧
    |a - b| < max (1/100 : ℚ) (|b| * (1/100))

/-- The date partial-credit condition of `check_exact_match`: both dates
    truthy and equal. -/
def cemDateEqual (s e : Str) : Prop :=
  (normalize_date s).getD [] ≠ [] ∧ (normalize_date e).getD [] ≠ [] ∧
    normalize_date s = normalize_date e

section ClaimTwo

lemma cem_not_full_ifs (s e : Str) (v : Option (List Str)) (hfc : ¬cemFullCredit s e v) :
    check_exact_match s e v =
      match normalize_number s, normalize_number e with
      | some sNum, some eNum =>
        if |sNum - eNum| < max (1/100 : ℚ) (|eNum| * (1/100)) then 1/2
        else cemTail s e (normalize_text s) (normalize_text e)
      | _, _ => cemTail s e (normalize_text s) (normalize_text e) := by
  unfold check_exact_match
  rw [if_neg, if_neg]
  · intro hany
    rw [List.any_eq_true] at hany
    obtain ⟨var, hv, hbeq⟩ := hany
    exact hfc (Or.inr ⟨var, hv, by rwa [beq_iff_eq] at hbeq⟩)
  · exact fun h => hfc (Or.inl h)

end ClaimTwo

/-- Claim C2: scoring is tiered with full credit dominating: a normalized
    match with the expected answer or a variant gives 1.0; only failing
    that, the numeric closeness test gives 0.5; the date-equality and
    containment fallbacks (the latter requiring normalized expected length
    greater than 5) also give 0.5 and are tried only after the numeric
    comparison. -/
theorem check_exact_match_tiered (s e : Str) (v : Option (List Str)) :
    (cemFullCredit s e v → check_exact_match s e v = 1) ∧
    (¬cemFullCredit s e v → cemNumericClose s e → check_exact_match s e v = 1/2) ∧
    (¬cemFullCredit s e v → ¬cemNumericClose s e → cemDateEqual s e →
      check_exact_match s e v = 1/2) ∧
    (¬cemFullCredit s e v → ¬cemNumericClose s e → ¬cemDateEqual s e →
      strContains (normalize_text s) (normalize_text e) = true →
      5 < (normalize_text e).length → check_exact_match s e v = 1/2) := by
  refine ⟨?_, ?_, ?_, ?_⟩
  · intro hfc
    unfold check_exact_match
    by_cases h0 : normalize_text s = normalize_text e
    · rw [if_pos h0]
    · rcases hfc with h | ⟨var, hv, hve⟩
      · exact absurd h h0
      · rw [if_neg h0, if_pos]
        rw [List.any_eq_true]
        exact ⟨var, hv, by rw [beq_iff_eq]; exact hve⟩
  · intro hfc ⟨a, b, ha, hb, hab⟩
    rw [cem_not_full_ifs s e v hfc, ha, hb]
    simp only []
    rw [if_pos hab]
  · intro hfc hnum hdate
    have htail : cemTail s e (normalize_text s) (normalize_text e) = 1/2 := by
      unfold cemDateEqual at hdate
      unfold cemTail
      rw [if_pos hdate]
    rw [cem_not_full_ifs s e v hfc]
    rcases ha : normalize_number s with _ | a
    · exact htail
    rcases hb : normalize_number e with _ | b
    · exact htail
    show (if |a - b| < max (1/100 : ℚ) (|b| * (1/100)) then 1/2
        else cemTail s e (normalize_text s) (normalize_text e)) = 1/2
    rw [if_neg fun hlt => hnum ⟨a, b, ha, hb, hlt⟩, htail]
  · intro hfc hnum hdate hcont hlen
    have htail : cemTail s e (normalize_text s) (normalize_text e) = 1/2 := by
      unfold cemDateEqual at hdate
      unfold cemTail
      rw [if_neg hdate, if_pos ⟨hcont, hlen⟩]
    rw [cem_not_full_ifs s e v hfc]
    rcases ha : normalize_number s with _ | a
    · exact htail
    rcases hb : normalize_number e with _ | b
    · exact htail
    show (if |a - b| < max (1/100 : ℚ) (|b| * (1/100)) then 1/2
        else cemTail s e (normalize_text s) (normalize_text e)) = 1/2
    rw [if_neg fun hlt => hnum ⟨a, b, ha, hb, hlt⟩, htail]

/-- Witness for C2 at concrete inputs: a variant match scores 1.0 and a
    numerically equal but differently formatted answer scores 0.5. -/
theorem check_exact_match_tiered_witness :
    check_exact_match (str "26.07.2023") (str "2023-07-26") (some [str "26.07.2023"]) = 1 ∧
    check_exact_match (str "3,0") (str "3") none = 1/2 :=
  ⟨(check_exact_match_tiered (str "26.07.2023") (str "2023-07-26")
      (some [str "26.07.2023"])).1 (Or.inr ⟨str "26.07.2023", by decide, by decide⟩),
   (check_exact_match_tiered (str "3,0") (str "3") none).2.1
     (by unfold cemFullCredit; with_unfolding_all decide)
     ⟨3, 3, by with_unfolding_all rfl, by with_unfolding_all rfl,
       by with_unfolding_all decide⟩⟩

section ClaimTen

lemma strContains_singleton (s : Str) (c : Nat) : strContains s [c] = true ↔ c ∈ s := by
  induction s with
  | nil => simp [strContains, List.isPrefixOf]
  | cons a t ih =>
    rw [strContains]
    show (List.isPrefixOf [c] (a :: t) || strContains t [c]) = true ↔ c ∈ a :: t
    simp only [List.isPrefixOf, Bool.or_eq_true, Bool.and_eq_true, beq_iff_eq,
      and_true, ih, List.mem_cons]

end ClaimTen

/-- Claim C10: `check_negative_question` returns true exactly for the empty
    and whitespace-only strings, the strings whose lowercased stripped form
    contains one of the fourteen negative indicators, and the strings of
    length below 50 containing a question mark. -/
theorem check_negative_question_characterization :
    negative_indicators.length = 14 ∧
    ∀ s, check_negative_question s = true ↔
      (pyStrip s = [] ∨
        (∃ ind ∈ negative_indicators, strContains (pyStrip (lowerStr s)) ind = true) ∨
        (63 ∈ s ∧ s.length < 50)) := by
  refine ⟨by decide, fun s => ?_⟩
  unfold check_negative_question
  split_ifs with h1 h2 h3
  · simp only [true_iff]
    rcases h1 with h | h
    · exact Or.inl (by rw [h]; rfl)
    · exact Or.inl h
  · simp only [true_iff]
    rw [List.any_eq_true] at h2
    exact Or.inr (Or.inl h2)
  · simp only [true_iff]
    exact Or.inr (Or.inr ⟨(strContains_singleton s 63).mp h3.1, h3.2⟩)
  · simp only [false_iff]
    push_neg at h1
    intro hr
    rcases hr with h | h | h
    · exact h1.2 h
    · exact h2 (List.any_eq_true.mpr h)
    · exact h3 ⟨(strContains_singleton s 63).mpr h.1, h.2⟩

/-- Witness for C10 at a concrete input: an answer containing the indicator
    `brak` passes. -/
theorem check_negative_question_characterization_witness :
    check_negative_question (str "Brak danych w archiwum.") = true :=
  (check_negative_question_characterization.2 (str "Brak danych w archiwum.")).mpr
    (Or.inr (Or.inl ⟨str "brak", by decide, by decide⟩))

section ClaimNine

lemma tfCorrect_nil (s : Str) : tfCorrect s [] = [] := by
  unfold tfCorrect
  simp

lemma tfPrecision_nil (s : Str) : tfPrecision s [] = 0 := by
  unfold tfPrecision
  split_ifs with h
  · rw [tfCorrect_nil]
    simp
  · rfl

lemma tfRecall_nil (s : Str) : tfRecall s [] = 0 := by
  unfold tfRecall
  simp

end ClaimNine

/-- Claim C9: the three divisions of `check_temporal_filter` are guarded —
    empty found set forces precision 0, empty expected set forces recall 0,
    non-positive precision plus recall forces F1 0 — and consequently a
    temporal question with no expected document ids has recall 0, F1 0 and
    never passes, whatever was submitted. -/
theorem check_temporal_filter_guarded (submitted : Str) (expected_ids : List Str) :
    (tfFound submitted = [] →
      (check_temporal_filter submitted expected_ids).precision = 0) ∧
    (expected_ids.dedup = [] →
      (check_temporal_filter submitted expected_ids).«recall» = 0) ∧
    (tfPrecision submitted expected_ids + tfRecall submitted expected_ids ≤ 0 →
      (check_temporal_filter submitted expected_ids).f1 = 0) ∧
    (check_temporal_filter submitted []).«recall» = 0 ∧
    (check_temporal_filter submitted []).f1 = 0 ∧
    (check_temporal_filter submitted []).pass = false := by
  refine ⟨fun h => ?_, fun h => ?_, fun h => ?_, ?_, ?_, ?_⟩
  · show tfPrecision submitted expected_ids = 0
    unfold tfPrecision
    rw [if_neg fun hne => hne h]
  · show tfRecall submitted expected_ids = 0
    unfold tfRecall
    rw [if_neg fun hne => hne h]
  · show (if 0 < tfPrecision submitted expected_ids + tfRecall submitted expected_ids
        then 2 * tfPrecision submitted expected_ids * tfRecall submitted expected_ids /
          (tfPrecision submitted expected_ids + tfRecall submitted expected_ids)
        else 0) = 0
    rw [if_neg (not_lt.mpr h)]
  · exact tfRecall_nil submitted
  · show (if 0 < tfPrecision submitted [] + tfRecall submitted []
        then 2 * tfPrecision submitted [] * tfRecall submitted [] /
          (tfPrecision submitted [] + tfRecall submitted [])
        else 0) = 0
    rw [tfPrecision_nil, tfRecall_nil, if_neg (by norm_num : ¬(0 : ℚ) < 0 + 0)]
  · show decide ((4/5 : ℚ) ≤ tfRecall submitted []) = false
    rw [tfRecall_nil]
    exact decide_eq_false (by norm_num)

/-- Witness for C9 at concrete inputs. -/
theorem check_temporal_filter_guarded_witness :
    (check_temporal_filter (str "nic") [str "doc_9"]).precision = 0 ∧
    (check_temporal_filter (str "doc_1") []).«recall» = 0 ∧
    (check_temporal_filter (str "nic") []).f1 = 0 :=
  ⟨(check_temporal_filter_guarded (str "nic") [str "doc_9"]).1 (by decide),
   (check_temporal_filter_guarded (str "doc_1") []).2.1 (by decide),
   (check_temporal_filter_guarded (str "nic") []).2.2.2.2.1⟩

section ClaimThree

lemma tfFound_toFinset (s : Str) :
    (tfFound s).toFinset = (findDocIds (lowerStr s)).toFinset := by
  unfold tfFound
  ext x
  simp [List.mem_dedup]

lemma tfFound_nodup (s : Str) : (tfFound s).Nodup := List.nodup_dedup _

lemma tfFound_length (s : Str) :
    (tfFound s).length = (findDocIds (lowerStr s)).toFinset.card := by
  rw [List.card_toFinset]
  rfl

lemma tfCorrect_toFinset (s : Str) (expected : List Str) :
    (tfCorrect s expected).toFinset =
      (findDocIds (lowerStr s)).toFinset ∩ expected.toFinset := by
  unfold tfCorrect
  ext x
  simp [List.mem_filter, List.mem_dedup, tfFound]

lemma tfCorrect_nodup (s : Str) (expected : List Str) :
    (tfCorrect s expected).Nodup :=
  List.Nodup.filter _ (tfFound_nodup s)

lemma tfCorrect_length (s : Str) (expected : List Str) :
    (tfCorrect s expected).length =
      ((findDocIds (lowerStr s)).toFinset ∩ expected.toFinset).card := by
  rw [← tfCorrect_toFinset, List.card_toFinset,
    List.dedup_eq_self.mpr (tfCorrect_nodup s expected)]

lemma tfFound_nil_iff (s : Str) :
    tfFound s = [] ↔ (findDocIds (lowerStr s)).toFinset = ∅ := by
  rw [List.toFinset_eq_empty_iff]
  unfold tfFound
  exact List.dedup_eq_nil _

lemma dedup_nil_iff_toFinset (l : List Str) : l.dedup = [] ↔ l.toFinset = ∅ := by
  rw [List.toFinset_eq_empty_iff]
  exact List.dedup_eq_nil _

end ClaimThree

/-- Claim C3: with F the set of `doc_\d+` substrings of the lowercased
    submission, E the set of expected ids and C their intersection,
    `check_temporal_filter` returns precision |C|/|F| (0 for empty F),
    recall |C|/|E| (0 for empty E), the harmonic F1 (0 when precision plus
    recall is 0), pass exactly when recall is at least 0.8, and correct /
    missing / extra lists enumerating C, E minus F, and F minus E without
    duplicates. -/
theorem check_temporal_filter_set_metrics (submitted : Str) (expected_ids : List Str) :
    ((check_temporal_filter submitted expected_ids).precision =
      if (findDocIds (lowerStr submitted)).toFinset = ∅ then 0
      else (((findDocIds (lowerStr submitted)).toFinset ∩ expected_ids.toFinset).card : ℚ) /
        (findDocIds (lowerStr submitted)).toFinset.card) ∧
    ((check_temporal_filter submitted expected_ids).«recall» =
      if expected_ids.toFinset = ∅ then 0
      else (((findDocIds (lowerStr submitted)).toFinset ∩ expected_ids.toFinset).card : ℚ) /
        expected_ids.toFinset.card) ∧
    ((check_temporal_filter submitted expected_ids).f1 =
      if 0 < (check_temporal_filter submitted expected_ids).precision +
          (check_temporal_filter submitted expected_ids).«recall» then
        2 * (check_temporal_filter submitted expected_ids).precision *
          (check_temporal_filter submitted expected_ids).«recall» /
          ((check_temporal_filter submitted expected_ids).precision +
            (check_temporal_filter submitted expected_ids).«recall»)
      else 0) ∧
    ((check_temporal_filter submitted expected_ids).pass = true ↔
      (4/5 : ℚ) ≤ (check_temporal_filter submitted expected_ids).«recall») ∧
    ((check_temporal_filter submitted expected_ids).correct.toFinset =
      (findDocIds (lowerStr submitted)).toFinset ∩ expected_ids.toFinset ∧
      (check_temporal_filter submitted expected_ids).correct.Nodup) ∧
    ((check_temporal_filter submitted expected_ids).missing.toFinset =
      expected_ids.toFinset \ (findDocIds (lowerStr submitted)).toFinset ∧
      (check_temporal_filter submitted expected_ids).missing.Nodup) ∧
    ((check_temporal_filter submitted expected_ids).extra.toFinset =
      (findDocIds (lowerStr submitted)).toFinset \ expected_ids.toFinset ∧
      (check_temporal_filter submitted expected_ids).extra.Nodup) := by
  refine ⟨?_, ?_, rfl, ?_, ⟨tfCorrect_toFinset submitted expected_ids,
    tfCorrect_nodup submitted expected_ids⟩, ⟨?_, ?_⟩, ⟨?_, ?_⟩⟩
  · show tfPrecision submitted expected_ids = _
    unfold tfPrecision
    rcases eq_or_ne (tfFound submitted) [] with he | he
    · rw [if_neg (fun h => h he), if_pos ((tfFound_nil_iff submitted).mp he)]
    · rw [if_pos he, if_neg (fun h => he ((tfFound_nil_iff submitted).mpr h)),
        tfCorrect_length, tfFound_length]
  · show tfRecall submitted expected_ids = _
    unfold tfRecall
    rcases eq_or_ne expected_ids.dedup [] with he | he
    · rw [if_neg (fun h => h he), if_pos ((dedup_nil_iff_toFinset expected_ids).mp he)]
    · rw [if_pos he, if_neg (fun h => he ((dedup_nil_iff_toFinset expected_ids).mpr h)),
        tfCorrect_length, List.card_toFinset]
  · show decide ((4/5 : ℚ) ≤ tfRecall submitted expected_ids) = true ↔ _
    exact decide_eq_true_iff
  · show (expected_ids.dedup.filter (fun x => !(tfFound submitted).contains x)).toFinset = _
    ext x
    simp [List.mem_filter, List.mem_dedup, tfFound, Finset.mem_sdiff]
  · exact List.Nodup.filter _ (List.nodup_dedup expected_ids)
  · show ((tfFound submitted).filter
      (fun x => !expected_ids.dedup.contains x)).toFinset = _
    ext x
    simp [List.mem_filter, List.mem_dedup, tfFound, Finset.mem_sdiff]
  · exact List.Nodup.filter _ (tfFound_nodup submitted)

section ClaimEight

/-- A code point left fixed by both the lowercasing and the NFKC tables. -/
def goodChar (c : Nat) : Prop := lowerChar c = c ∧ nfkcChar c = [c]

lemma lowerChar_eq_self_of (c : Nat) (g1 : ¬(65 ≤ c ∧ c ≤ 90))
    (g2 : ¬(0xC0 ≤ c ∧ c ≤ 0xDE ∧ c ≠ 0xD7))
    (g3 : ¬(0x100 ≤ c ∧ c ≤ 0x137 ∧ c % 2 = 0))
    (g4 : ¬(0x139 ≤ c ∧ c ≤ 0x148 ∧ c % 2 = 1))
    (g5 : ¬(0x14A ≤ c ∧ c ≤ 0x177 ∧ c % 2 = 0)) (g6 : c ≠ 0x178)
    (g7 : ¬(0x179 ≤ c ∧ c ≤ 0x17E ∧ c % 2 = 1)) (g8 : c ≠ 0x3A9) :
    lowerChar c = c := by
  unfold lowerChar
  rw [if_neg g1, if_neg g2, if_neg g3, if_neg g4, if_neg g5, if_neg g6, if_neg g7,
    if_neg g8]

lemma lowerChar_idem (c : Nat) : lowerChar (lowerChar c) = lowerChar c := by
  by_cases g1 : 65 ≤ c ∧ c ≤ 90
  · have e : lowerChar c = c + 32 := by unfold lowerChar; rw [if_pos g1]
    rw [e]
    exact lowerChar_eq_self_of _ (by omega) (by omega) (by omega) (by omega) (by omega)
      (by omega) (by omega) (by omega)
  by_cases g2 : 0xC0 ≤ c ∧ c ≤ 0xDE ∧ c ≠ 0xD7
  · have e : lowerChar c = c + 32 := by unfold lowerChar; rw [if_neg g1, if_pos g2]
    rw [e]
    exact lowerChar_eq_self_of _ (by omega) (by omega) (by omega) (by omega) (by omega)
      (by omega) (by omega) (by omega)
  by_cases g3 : 0x100 ≤ c ∧ c ≤ 0x137 ∧ c % 2 = 0
  · have e : lowerChar c = c + 1 := by
      unfold lowerChar; rw [if_neg g1, if_neg g2, if_pos g3]
    rw [e]
    exact lowerChar_eq_self_of _ (by omega) (by omega) (by omega) (by omega) (by omega)
      (by omega) (by omega) (by omega)
  by_cases g4 : 0x139 ≤ c ∧ c ≤ 0x148 ∧ c % 2 = 1
  · have e : lowerChar c = c + 1 := by
      unfold lowerChar; rw [if_neg g1, if_neg g2, if_neg g3, if_pos g4]
    rw [e]
    exact lowerChar_eq_self_of _ (by omega) (by omega) (by omega) (by omega) (by omega)
      (by omega) (by omega) (by omega)
  by_cases g5 : 0x14A ≤ c ∧ c ≤ 0x177 ∧ c % 2 = 0
  · have e : lowerChar c = c + 1 := by
      unfold lowerChar; rw [if_neg g1, if_neg g2, if_neg g3, if_neg g4, if_pos g5]
    rw [e]
    exact lowerChar_eq_self_of _ (by omega) (by omega) (by omega) (by omega) (by omega)
      (by omega) (by omega) (by omega)
  by_cases g6 : c = 0x178
  · have e : lowerChar c = 0xFF := by
      unfold lowerChar; rw [if_neg g1, if_neg g2, if_neg g3, if_neg g4, if_neg g5,
        if_pos g6]
    rw [e]
    exact lowerChar_eq_self_of _ (by omega) (by omega) (by omega) (by omega) (by omega)
      (by omega) (by omega) (by omega)
  by_cases g7 : 0x179 ≤ c ∧ c ≤ 0x17E ∧ c % 2 = 1
  · have e : lowerChar c = c + 1 := by
      unfold lowerChar; rw [if_neg g1, if_neg g2, if_neg g3, if_neg g4, if_neg g5,
        if_neg g6, if_pos g7]
    rw [e]
    exact lowerChar_eq_self_of _ (by omega) (by omega) (by omega) (by omega) (by omega)
      (by omega) (by omega) (by omega)
  by_cases g8 : c = 0x3A9
  · have e : lowerChar c = 0x3C9 := by
      unfold lowerChar; rw [if_neg g1, if_neg g2, if_neg g3, if_neg g4, if_neg g5,
        if_neg g6, if_neg g7, if_pos g8]
    rw [e]
    exact lowerChar_eq_self_of _ (by omega) (by omega) (by omega) (by omega) (by omega)
      (by omega) (by omega) (by omega)
  · have e : lowerChar c = c :=
      lowerChar_eq_self_of _ g1 g2 g3 g4 g5 g6 g7 g8
    rw [e]
    exact e

lemma nfkcChar_eq_self (c : Nat) (h1 : c ≠ 0xA0)
    (h2 : ¬((0x2000 ≤ c ∧ c ≤ 0x200A) ∨ c = 0x202F ∨ c = 0x205F ∨ c = 0x3000))
    (h3 : c ≠ 0x2126) (h4 : c ≠ 0xFB01) (h5 : c ≠ 0xFB02) (h6 : c ≠ 0xB2)
    (h7 : c ≠ 0xB3) : nfkcChar c = [c] := by
  unfold nfkcChar
  rw [if_neg h1, if_neg h2, if_neg h3, if_neg h4, if_neg h5, if_neg h6, if_neg h7]

lemma nfkcChar_lowerChar (c : Nat) (h1 : c ≠ 0xA0)
    (h2 : ¬((0x2000 ≤ c ∧ c ≤ 0x200A) ∨ c = 0x202F ∨ c = 0x205F ∨ c = 0x3000))
    (h3 : c ≠ 0x2126) (h4 : c ≠ 0xFB01) (h5 : c ≠ 0xFB02) (h6 : c ≠ 0xB2)
    (h7 : c ≠ 0xB3) : nfkcChar (lowerChar c) = [lowerChar c] := by
  unfold lowerChar
  split_ifs with g1 g2 g3 g4 g5 g6 g7 g8
  · exact nfkcChar_eq_self _ (by omega) (by omega) (by omega) (by omega) (by omega)
      (by omega) (by omega)
  · exact nfkcChar_eq_self _ (by omega) (by omega) (by omega) (by omega) (by omega)
      (by omega) (by omega)
  · exact nfkcChar_eq_self _ (by omega) (by omega) (by omega) (by omega) (by omega)
      (by omega) (by omega)
  · exact nfkcChar_eq_self _ (by omega) (by omega) (by omega) (by omega) (by omega)
      (by omega) (by omega)
  · exact nfkcChar_eq_self _ (by omega) (by omega) (by omega) (by omega) (by omega)
      (by omega) (by omega)
  · exact nfkcChar_eq_self _ (by omega) (by omega) (by omega) (by omega) (by omega)
      (by omega) (by omega)
  · exact nfkcChar_eq_self _ (by omega) (by omega) (by omega) (by omega) (by omega)
      (by omega) (by omega)
  · exact nfkcChar_eq_self _ (by omega) (by omega) (by omega) (by omega) (by omega)
      (by omega) (by omega)
  · exact nfkcChar_eq_self c h1 h2 h3 h4 h5 h6 h7

lemma goodChar_out (c : Nat) : ∀ d ∈ (nfkcChar c).map lowerChar, goodChar d := by
  by_cases h1 : c = 0xA0
  · subst h1; intro d hd; simp [nfkcChar] at hd; subst hd
    exact ⟨by decide, by decide⟩
  by_cases h2 : (0x2000 ≤ c ∧ c ≤ 0x200A) ∨ c = 0x202F ∨ c = 0x205F ∨ c = 0x3000
  · intro d hd
    rw [show nfkcChar c = [32] by unfold nfkcChar; rw [if_neg h1, if_pos h2]] at hd
    simp at hd; subst hd
    exact ⟨by decide, by decide⟩
  by_cases h3 : c = 0x2126
  · subst h3; intro d hd; simp [nfkcChar] at hd; subst hd
    exact ⟨by decide, by decide⟩
  by_cases h4 : c = 0xFB01
  · subst h4; intro d hd; simp [nfkcChar] at hd
    rcases hd with hd | hd <;> subst hd <;> exact ⟨by decide, by decide⟩
  by_cases h5 : c = 0xFB02
  · subst h5; intro d hd; simp [nfkcChar] at hd
    rcases hd with hd | hd <;> subst hd <;> exact ⟨by decide, by decide⟩
  by_cases h6 : c = 0xB2
  · subst h6; intro d hd; simp [nfkcChar] at hd; subst hd
    exact ⟨by decide, by decide⟩
  by_cases h7 : c = 0xB3
  · subst h7; intro d hd; simp [nfkcChar] at hd; subst hd
    exact ⟨by decide, by decide⟩
  intro d hd
  rw [nfkcChar_eq_self c h1 h2 h3 h4 h5 h6 h7] at hd
  simp at hd
  subst hd
  exact ⟨lowerChar_idem c, nfkcChar_lowerChar c h1 h2 h3 h4 h5 h6 h7⟩

end ClaimEight

section ClaimEightStrings

lemma goodChar_mem_lower_nfkc {s : Str} {d : Nat} (hd : d ∈ lowerStr (nfkcStr s)) :
    goodChar d := by
  unfold lowerStr nfkcStr at hd
  rw [List.mem_map] at hd
  obtain ⟨b, hb, rfl⟩ := hd
  rw [List.mem_flatMap] at hb
  obtain ⟨a, _, hab⟩ := hb
  exact goodChar_out a _ (List.mem_map_of_mem lowerChar hab)

lemma mem_pyStrip {s : Str} {c : Nat} (h : c ∈ pyStrip s) : c ∈ s := by
  unfold pyStrip at h
  rw [List.mem_reverse] at h
  have h2 := (List.dropWhile_suffix isPySpace).subset h
  rw [List.mem_reverse] at h2
  exact (List.dropWhile_suffix isPySpace).subset h2

lemma mem_collapseWs {c : Nat} : ∀ {s : Str}, c ∈ collapseWs s →
    c = 32 ∨ (c ∈ s ∧ isPySpace c = false)
  | [], h => by simp [collapseWs] at h
  | [a], h => by
    simp only [collapseWs] at h
    by_cases ha : isPySpace a
    · rw [if_pos ha] at h
      simp at h
      exact Or.inl h
    · rw [if_neg ha] at h
      simp only [List.mem_singleton] at h
      refine Or.inr ⟨?_, ?_⟩
      · rw [h]; exact List.mem_singleton_self a
      · rw [h]; simpa using ha
  | a :: b :: t, h => by
    rw [collapseWs] at h
    by_cases hab : isPySpace a && isPySpace b
    · rw [if_pos hab] at h
      rcases mem_collapseWs h with h2 | h2
      · exact Or.inl h2
      · exact Or.inr ⟨List.mem_cons_of_mem a h2.1, h2.2⟩
    · rw [if_neg hab] at h
      rcases List.mem_cons.mp h with h2 | h2
      · by_cases ha : isPySpace a
        · rw [if_pos ha] at h2
          exact Or.inl h2
        · rw [if_neg ha] at h2
          refine Or.inr ⟨?_, ?_⟩
          · rw [h2]; exact List.mem_cons_self a (b :: t)
          · rw [h2]; simpa using ha
      · rcases mem_collapseWs h2 with h3 | h3
        · exact Or.inl h3
        · exact Or.inr ⟨List.mem_cons_of_mem a h3.1, h3.2⟩

lemma collapseWs_head? : ∀ (c : Nat) (t : Str),
    (collapseWs (c :: t)).head? = some (if isPySpace c then 32 else c)
  | c, [] => rfl
  | c, b :: t2 => by
    rw [collapseWs]
    by_cases h : isPySpace c && isPySpace b
    · rw [if_pos h, collapseWs_head? b t2]
      rw [Bool.and_eq_true] at h
      rw [if_pos h.1, if_pos h.2]
    · rw [if_neg h]
      rfl

lemma collapseWs_ne_nil {c : Nat} {t : Str} : collapseWs (c :: t) ≠ [] := by
  intro h
  have := collapseWs_head? c t
  rw [h] at this
  simp at this

lemma collapseWs_chain : ∀ s : Str,
    List.Chain' (fun a b => ¬(a = 32 ∧ b = 32)) (collapseWs s)
  | [] => List.chain'_nil
  | [c] => by
    simp only [collapseWs]
    exact List.chain'_singleton _
  | a :: b :: t => by
    rw [collapseWs]
    by_cases h : isPySpace a && isPySpace b
    · rw [if_pos h]
      exact collapseWs_chain (b :: t)
    · rw [if_neg h]
      rw [List.chain'_cons']
      refine ⟨?_, collapseWs_chain (b :: t)⟩
      intro y hy
      rw [collapseWs_head? b t] at hy
      simp only [Option.mem_def, Option.some.injEq] at hy
      subst hy
      rintro ⟨hx, hy⟩
      rw [Bool.and_eq_true] at h
      split_ifs at hx hy with ha hb
      · exact h ⟨ha, hb⟩
      · exact hb (by rw [hy]; decide)
      · exact ha (by rw [hx]; decide)
      · exact ha (by rw [hx]; decide)

lemma getLast?_cons_of_ne_nil {x : Nat} {L : Str} (h : L ≠ []) :
    (x :: L).getLast? = L.getLast? := by
  cases L with
  | nil => exact absurd rfl h
  | cons b t => exact List.getLast?_cons_cons

lemma collapseWs_getLast? : ∀ {s : Str},
    (∀ x ∈ s.getLast?, isPySpace x = false) →
    ∀ x ∈ (collapseWs s).getLast?, isPySpace x = false
  | [], _, x, hx => by simp [collapseWs] at hx
  | [c], h, x, hx => by
    have hc : isPySpace c = false := h c rfl
    simp only [collapseWs, hc, Bool.false_eq_true, if_false] at hx
    have hx2 : c = x := by simpa using hx
    rw [← hx2]
    exact hc
  | a :: b :: t, h, x, hx => by
    have htail : ∀ y ∈ (b :: t).getLast?, isPySpace y = false := by
      intro y hy
      exact h y (by rwa [List.getLast?_cons_cons])
    rw [collapseWs] at hx
    by_cases hab : isPySpace a && isPySpace b
    · rw [if_pos hab] at hx
      exact collapseWs_getLast? htail x hx
    · rw [if_neg hab, getLast?_cons_of_ne_nil collapseWs_ne_nil] at hx
      exact collapseWs_getLast? htail x hx

lemma head?_dropWhile (p : Nat → Bool) :
    ∀ (l : Str), ∀ x ∈ (l.dropWhile p).head?, p x = false
  | [], x, hx => by simp at hx
  | a :: t, x, hx => by
    rw [List.dropWhile_cons] at hx
    by_cases pa : p a
    · rw [if_pos pa] at hx
      exact head?_dropWhile p t x hx
    · rw [if_neg pa] at hx
      simp only [List.head?_cons, Option.mem_def, Option.some.injEq] at hx
      subst hx
      simpa using pa

lemma pyStrip_getLast? (s : Str) : ∀ x ∈ (pyStrip s).getLast?, isPySpace x = false := by
  intro x hx
  unfold pyStrip at hx
  rw [List.getLast?_reverse] at hx
  exact head?_dropWhile isPySpace _ x hx

lemma pyStrip_head? (s : Str) : ∀ x ∈ (pyStrip s).head?, isPySpace x = false := by
  intro x hx
  unfold pyStrip at hx
  rw [List.head?_reverse] at hx
  rcases hd : (s.dropWhile isPySpace).reverse.dropWhile isPySpace with _ | ⟨c, t⟩
  · rw [hd] at hx
    simp at hx
  · rw [hd] at hx
    have hsuff := List.dropWhile_suffix (l := (s.dropWhile isPySpace).reverse)
      (p := isPySpace)
    rw [hd] at hsuff
    obtain ⟨pre, hpre⟩ := hsuff
    have hlast : ((s.dropWhile isPySpace).reverse).getLast? = (c :: t).getLast? := by
      rw [← hpre]
      exact List.getLast?_append_of_ne_nil pre (by simp)
    rw [← hlast, List.getLast?_reverse] at hx
    exact head?_dropWhile isPySpace s x hx

end ClaimEightStrings

section ClaimEightAssembly

lemma nfkcStr_fixed : ∀ {s : Str}, (∀ c ∈ s, goodChar c) → nfkcStr s = s
  | [], _ => rfl
  | a :: t, h => by
    unfold nfkcStr
    rw [List.flatMap_cons, (h a (List.mem_cons_self a t)).2]
    have := nfkcStr_fixed (fun c hc => h c (List.mem_cons_of_mem a hc))
    unfold nfkcStr at this
    rw [this]
    rfl

lemma lowerStr_fixed : ∀ {s : Str}, (∀ c ∈ s, goodChar c) → lowerStr s = s
  | [], _ => rfl
  | a :: t, h => by
    unfold lowerStr
    rw [List.map_cons, (h a (List.mem_cons_self a t)).1]
    have := lowerStr_fixed (fun c hc => h c (List.mem_cons_of_mem a hc))
    unfold lowerStr at this
    rw [this]

lemma dropWhile_eq_self_of_head {p : Nat → Bool} {s : Str}
    (h : ∀ x ∈ s.head?, p x = false) : s.dropWhile p = s := by
  cases s with
  | nil => rfl
  | cons a t =>
    rw [List.dropWhile_cons, if_neg]
    rw [h a rfl]
    simp

lemma pyStrip_fixed {s : Str} (hh : ∀ x ∈ s.head?, isPySpace x = false)
    (hl : ∀ x ∈ s.getLast?, isPySpace x = false) : pyStrip s = s := by
  unfold pyStrip
  rw [dropWhile_eq_self_of_head hh]
  rw [dropWhile_eq_self_of_head (by
    intro x hx
    rw [List.head?_reverse] at hx
    exact hl x hx)]
  exact List.reverse_reverse s

lemma collapseWs_fixed : ∀ {s : Str},
    (∀ c ∈ s, isPySpace c = true → c = 32) →
    List.Chain' (fun a b => ¬(a = 32 ∧ b = 32)) s → collapseWs s = s
  | [], _, _ => rfl
  | [c], hmem, _ => by
    simp only [collapseWs]
    by_cases hc : isPySpace c
    · rw [if_pos hc, hmem c (List.mem_singleton_self c) hc]
    · rw [if_neg hc]
  | a :: b :: t, hmem, hch => by
    rw [collapseWs]
    have htailmem : ∀ c ∈ b :: t, isPySpace c = true → c = 32 :=
      fun c hc => hmem c (List.mem_cons_of_mem a hc)
    have hchtail : List.Chain' (fun a b => ¬(a = 32 ∧ b = 32)) (b :: t) :=
      (List.chain'_cons'.mp hch).2
    rw [if_neg ?hneg]
    case hneg =>
      rw [Bool.and_eq_true]
      rintro ⟨ha, hb⟩
      exact (List.chain'_cons'.mp hch).1 b rfl
        ⟨hmem a (List.mem_cons_self a (b :: t)) ha, htailmem b (List.mem_cons_self b t) hb⟩
    rw [collapseWs_fixed htailmem hchtail]
    by_cases ha : isPySpace a
    · rw [if_pos ha, hmem a (List.mem_cons_self a (b :: t)) ha]
    · rw [if_neg ha]

end ClaimEightAssembly

/-- Claim C8: `normalize_text` is idempotent, and its output is lowercase
    (every code point fixed by the lowercasing table), has no leading or
    trailing whitespace, and never contains two adjacent whitespace
    characters. -/
theorem normalize_text_idempotent_canonical (s : Str) :
    normalize_text (normalize_text s) = normalize_text s ∧
    (∀ c ∈ normalize_text s, lowerChar c = c) ∧
    (∀ x ∈ (normalize_text s).head?, isPySpace x = false) ∧
    (∀ x ∈ (normalize_text s).getLast?, isPySpace x = false) ∧
    List.Chain' (fun a b => ¬(isPySpace a = true ∧ isPySpace b = true))
      (normalize_text s) := by
  have hmem : ∀ c ∈ normalize_text s, (goodChar c ∧ (isPySpace c = true → c = 32)) := by
    intro c hc
    rcases mem_collapseWs hc with h32 | ⟨hmem2, hns⟩
    · subst h32
      exact ⟨⟨by decide, by decide⟩, fun _ => rfl⟩
    · refine ⟨goodChar_mem_lower_nfkc (mem_pyStrip hmem2), fun hsp => ?_⟩
      rw [hns] at hsp
      exact absurd hsp (by simp)
  have hhead : ∀ x ∈ (normalize_text s).head?, isPySpace x = false := by
    intro x hx
    unfold normalize_text at hx
    rcases hp : pyStrip (lowerStr (nfkcStr s)) with _ | ⟨c, t⟩
    · rw [hp] at hx
      simp [collapseWs] at hx
    · rw [hp, collapseWs_head? c t] at hx
      have hc : isPySpace c = false := by
        have := pyStrip_head? (lowerStr (nfkcStr s))
        rw [hp] at this
        exact this c rfl
      rw [if_neg (by simp [hc])] at hx
      have hx2 : c = x := by simpa using hx
      rw [← hx2]
      exact hc
  have hlast : ∀ x ∈ (normalize_text s).getLast?, isPySpace x = false := by
    unfold normalize_text
    exact collapseWs_getLast? (pyStrip_getLast? (lowerStr (nfkcStr s)))
  have hchain32 : List.Chain' (fun a b => ¬(a = 32 ∧ b = 32)) (normalize_text s) :=
    collapseWs_chain _
  have hchain : List.Chain' (fun a b => ¬(isPySpace a = true ∧ isPySpace b = true))
      (normalize_text s) := by
    have : ∀ (t : Str), (∀ c ∈ t, isPySpace c = true → c = 32) →
        List.Chain' (fun a b => ¬(a = 32 ∧ b = 32)) t →
        List.Chain' (fun a b => ¬(isPySpace a = true ∧ isPySpace b = true)) t := by
      intro t
      induction t with
      | nil => intro _ _; exact List.chain'_nil
      | cons a t2 ih =>
        intro hm hc
        rw [List.chain'_cons'] at hc ⊢
        refine ⟨?_, ih (fun c hcm => hm c (List.mem_cons_of_mem a hcm)) hc.2⟩
        rintro y hy ⟨hsa, hsy⟩
        exact hc.1 y hy ⟨hm a (List.mem_cons_self a t2) hsa,
          hm y (List.mem_cons_of_mem a (List.mem_of_mem_head? hy)) hsy⟩
    exact this _ (fun c hc => (hmem c hc).2) hchain32
  refine ⟨?_, fun c hc => ((hmem c hc).1).1, hhead, hlast, hchain⟩
  show collapseWs (pyStrip (lowerStr (nfkcStr (normalize_text s)))) = normalize_text s
  rw [nfkcStr_fixed (fun c hc => (hmem c hc).1),
    lowerStr_fixed (fun c hc => (hmem c hc).1),
    pyStrip_fixed hhead hlast,
    collapseWs_fixed (fun c hc => (hmem c hc).2) hchain32]

/-- Witness for C8 at a concrete input. -/
theorem normalize_text_idempotent_canonical_witness :
    normalize_text (normalize_text (str "  Ala  MA kotA ")) =
      normalize_text (str "  Ala  MA kotA ") ∧ lowerChar 97 = 97 :=
  ⟨(normalize_text_idempotent_canonical (str "  Ala  MA kotA ")).1,
   (normalize_text_idempotent_canonical (str "  Ala  MA kotA ")).2.1 97 (by decide)⟩

/-- Shape test for `YYYY-MM-DD`: ten code points, digits around ASCII
    hyphens in positions 5 and 8. -/
def isYMD (s : Str) : Bool :=
  match s with
  | [a, b, c, d, e, f, g, h, i, j] =>
    isDigit a && isDigit b && isDigit c && isDigit d && (e == 45) &&
      isDigit f && isDigit g && (h == 45) && isDigit i && isDigit j
  | _ => false

/-- Shape test for `YYYY-MM`: seven code points, digits around an ASCII
    hyphen in position 5. -/
def isYM (s : Str) : Bool :=
  match s with
  | [a, b, c, d, e, f, g] =>
    isDigit a && isDigit b && isDigit c && isDigit d && (e == 45) &&
      isDigit f && isDigit g
  | _ => false

section ClaimSix

/-- A one- or two-digit group, as the `\d{1,2}` captures produce. -/
def digits2 (m : Str) : Prop :=
  (∃ m1, m = [m1] ∧ isDigit m1 = true) ∨
    (∃ m1 m2, m = [m1, m2] ∧ isDigit m1 = true ∧ isDigit m2 = true)

/-- A four-digit group, as the `\d{4}` capture produces. -/
def digits4 (y : Str) : Prop :=
  ∃ a b c d, y = [a, b, c, d] ∧ isDigit a = true ∧ isDigit b = true ∧
    isDigit c = true ∧ isDigit d = true

lemma zfill2_digits2 {m : Str} (h : digits2 m) :
    ∃ a b, zfill2 m = [a, b] ∧ isDigit a = true ∧ isDigit b = true := by
  rcases h with ⟨m1, rfl, h1⟩ | ⟨m1, m2, rfl, h1, h2⟩
  · exact ⟨48, m1, rfl, by decide, h1⟩
  · exact ⟨m1, m2, rfl, h1, h2⟩

lemma isoMatchAt_isYMD {s d : Str} (h : isoMatchAt s = some d) : isYMD d = true := by
  unfold isoMatchAt at h
  split at h
  · split_ifs at h with hc
    obtain ⟨h1, h2, h3, h4, h5, h6, h7, h8, h9, h10⟩ := hc
    simp only [Option.some.injEq] at h
    subst h
    simp [isYMD, h1, h2, h3, h4, h5, h6, h7, h8, h9, h10]
  · exact absurd h (by simp)

lemma isoSearch_isYMD : ∀ {s d : Str}, isoSearch s = some d → isYMD d = true
  | [], _, h => by simp [isoSearch] at h
  | c :: rest, d, h => by
    rw [isoSearch] at h
    rcases hm : isoMatchAt (c :: rest) with _ | m <;> rw [hm] at h
    · exact isoSearch_isYMD h
    · simp only [Option.some.injEq] at h
      exact h ▸ isoMatchAt_isYMD hm

lemma ymMatchAt_isYM {s d : Str} (h : ymMatchAt s = some d) : isYM d = true := by
  unfold ymMatchAt at h
  split at h
  · split_ifs at h with hc
    obtain ⟨h1, h2, h3, h4, h5, h6, h7⟩ := hc
    simp only [Option.some.injEq] at h
    subst h
    simp [isYM, h1, h2, h3, h4, h5, h6, h7]
  · exact absurd h (by simp)

lemma ymSearch_isYM : ∀ {s d : Str}, ymSearch s = some d → isYM d = true
  | [], _, h => by simp [ymSearch] at h
  | c :: rest, d, h => by
    rw [ymSearch] at h
    rcases hm : ymMatchAt (c :: rest) with _ | m <;> rw [hm] at h
    · exact ymSearch_isYM h
    · simp only [Option.some.injEq] at h
      exact h ▸ ymMatchAt_isYM hm

lemma fourDigitsAt_digits4 {s y : Str} (h : fourDigitsAt s = some y) : digits4 y := by
  unfold fourDigitsAt at h
  split at h
  · split_ifs at h with hc
    obtain ⟨h1, h2, h3, h4⟩ := hc
    simp only [Option.some.injEq] at h
    exact ⟨_, _, _, _, h.symm, h1, h2, h3, h4⟩
  · exact absurd h (by simp)

lemma monthYear2_shape {s m y : Str} (h : monthYear2 s = some (m, y)) :
    digits2 m ∧ digits4 y := by
  unfold monthYear2 at h
  split at h
  · split_ifs at h with hc
    rcases hf : fourDigitsAt _ with _ | y0 <;> rw [hf] at h
    · exact Option.noConfusion h
    · simp only [Option.map_some', Option.some.injEq, Prod.mk.injEq] at h
      exact ⟨Or.inr ⟨_, _, h.1.symm, hc.1, hc.2.1⟩, h.2 ▸ fourDigitsAt_digits4 hf⟩
  · exact absurd h (by simp)

lemma monthYear1_shape {s m y : Str} (h : monthYear1 s = some (m, y)) :
    digits2 m ∧ digits4 y := by
  unfold monthYear1 at h
  split at h
  · split_ifs at h with hc
    rcases hf : fourDigitsAt _ with _ | y0 <;> rw [hf] at h
    · exact Option.noConfusion h
    · simp only [Option.map_some', Option.some.injEq, Prod.mk.injEq] at h
      exact ⟨Or.inl ⟨_, h.1.symm, hc.1⟩, h.2 ▸ fourDigitsAt_digits4 hf⟩
  · exact absurd h (by simp)

lemma monthYearAt_shape {s m y : Str} (h : monthYearAt s = some (m, y)) :
    digits2 m ∧ digits4 y := by
  unfold monthYearAt at h
  rcases hX : monthYear2 s with _ | v <;> rw [hX] at h
  · rw [Option.none_orElse] at h
    exact monthYear1_shape h
  · rw [Option.some_orElse] at h
    obtain rfl : v = (m, y) := Option.some.inj h
    exact monthYear2_shape hX

lemma polishDay2_shape {s d m y : Str} (h : polishDay2 s = some (d, m, y)) :
    digits2 d ∧ digits2 m ∧ digits4 y := by
  unfold polishDay2 at h
  split at h
  · split_ifs at h with hc
    rcases hf : monthYearAt _ with _ | my <;> rw [hf] at h
    · exact Option.noConfusion h
    · simp only [Option.map_some', Option.some.injEq, Prod.mk.injEq] at h
      have hmy := monthYearAt_shape (s := _) (m := my.1) (y := my.2) (by rw [hf])
      exact ⟨Or.inr ⟨_, _, h.1.symm, hc.1, hc.2.1⟩, h.2.1 ▸ hmy.1, h.2.2 ▸ hmy.2⟩
  · exact absurd h (by simp)

lemma polishDay1_shape {s d m y : Str} (h : polishDay1 s = some (d, m, y)) :
    digits2 d ∧ digits2 m ∧ digits4 y := by
  unfold polishDay1 at h
  split at h
  · split_ifs at h with hc
    rcases hf : monthYearAt _ with _ | my <;> rw [hf] at h
    · exact Option.noConfusion h
    · simp only [Option.map_some', Option.some.injEq, Prod.mk.injEq] at h
      have hmy := monthYearAt_shape (s := _) (m := my.1) (y := my.2) (by rw [hf])
      exact ⟨Or.inl ⟨_, h.1.symm, hc.1⟩, h.2.1 ▸ hmy.1, h.2.2 ▸ hmy.2⟩
  · exact absurd h (by simp)

lemma polishMatchAt_shape {s d m y : Str} (h : polishMatchAt s = some (d, m, y)) :
    digits2 d ∧ digits2 m ∧ digits4 y := by
  unfold polishMatchAt at h
  rcases hX : polishDay2 s with _ | v <;> rw [hX] at h
  · rw [Option.none_orElse] at h
    exact polishDay1_shape h
  · rw [Option.some_orElse] at h
    obtain rfl : v = (d, m, y) := Option.some.inj h
    exact polishDay2_shape hX

lemma polishSearch_shape : ∀ {s d m y : Str},
    polishSearch s = some (d, m, y) → digits2 d ∧ digits2 m ∧ digits4 y
  | [], _, _, _, h => by simp [polishSearch] at h
  | c :: rest, d, m, y, h => by
    rw [polishSearch] at h
    rcases hm : polishMatchAt (c :: rest) with _ | v <;> rw [hm] at h
    · rw [Option.none_orElse] at h
      exact polishSearch_shape h
    · rw [Option.some_orElse] at h
      obtain rfl : v = (d, m, y) := Option.some.inj h
      exact polishMatchAt_shape hm

end ClaimSix

section ClaimSixAssembly

lemma polishBuild_isYMD {day month year : Str} (hd : digits2 day) (hm : digits2 month)
    (hy : digits4 year) :
    isYMD (year ++ [45] ++ zfill2 month ++ [45] ++ zfill2 day) = true := by
  obtain ⟨y1, y2, y3, y4, rfl, k1, k2, k3, k4⟩ := hy
  obtain ⟨a, b, hab, ha, hb⟩ := zfill2_digits2 hm
  obtain ⟨c, d, hcd, hc, hd2⟩ := zfill2_digits2 hd
  rw [hab, hcd]
  show isYMD [y1, y2, y3, y4, 45, a, b, 45, c, d] = true
  simp [isYMD, k1, k2, k3, k4, ha, hb, hc, hd2]

end ClaimSixAssembly

/-- Claim C6 (amended): `normalize_date` returns `None`, a `YYYY-MM-DD`
    string, or a bare `YYYY-MM` string (the year-month fallback); an input
    containing an ISO date returns its leftmost ISO match unchanged, and an
    input with no ISO date whose Polish `DD.MM.YYYY` / `DD/MM/YYYY` pattern
    matches is converted to `YYYY-MM-DD` with zero-padded day and month. -/
theorem normalize_date_shape :
    (∀ s d, normalize_date s = some d → isYMD d = true ∨ isYM d = true) ∧
    (∀ s d, isoSearch s = some d → normalize_date s = some d) ∧
    (∀ s day month year, isoSearch s = none →
      polishSearch s = some (day, month, year) →
      normalize_date s = some (year ++ [45] ++ zfill2 month ++ [45] ++ zfill2 day) ∧
      isYMD (year ++ [45] ++ zfill2 month ++ [45] ++ zfill2 day) = true) := by
  refine ⟨?_, ?_, ?_⟩
  · intro s d h
    unfold normalize_date at h
    rcases hiso : isoSearch s with _ | m <;> rw [hiso] at h
    · rcases hp : polishSearch s with _ | ⟨day, month, year⟩ <;> rw [hp] at h
      · exact Or.inr (ymSearch_isYM h)
      · obtain ⟨hd, hm, hy⟩ := polishSearch_shape hp
        obtain rfl : year ++ [45] ++ zfill2 month ++ [45] ++ zfill2 day = d :=
          Option.some.inj h
        exact Or.inl (polishBuild_isYMD hd hm hy)
    · obtain rfl : m = d := Option.some.inj h
      exact Or.inl (isoSearch_isYMD hiso)
  · intro s d h
    unfold normalize_date
    rw [h]
  · intro s day month year hiso hp
    obtain ⟨hd, hm, hy⟩ := polishSearch_shape hp
    constructor
    · unfold normalize_date
      rw [hiso, hp]
    · exact polishBuild_isYMD hd hm hy

/-- Counterexample to C6 as stated: `normalize_date` can return a bare
    `YYYY-MM` string (not `YYYY-MM-DD`), and an input containing a Polish
    date is not converted when an ISO date also occurs earlier in the
    string. -/
theorem normalize_date_claim_counterexample :
    normalize_date (str "2023-07") = some (str "2023-07") ∧
    isYMD (str "2023-07") = false ∧
    normalize_date (str "2020-01-01 oraz 26.07.2023") = some (str "2020-01-01") ∧
    normalize_date (str "2020-01-01 oraz 26.07.2023") ≠ some (str "2023-07-26") :=
  ⟨by decide, by decide, by decide, by decide⟩

/-- Witness for the amended C6 at a concrete input. -/
theorem normalize_date_shape_witness :
    normalize_date (str "w dniu 26.07.2023") =
      some (str "2023" ++ [45] ++ zfill2 (str "07") ++ [45] ++ zfill2 (str "26")) ∧
    isYMD (str "2023" ++ [45] ++ zfill2 (str "07") ++ [45] ++ zfill2 (str "26")) = true :=
  normalize_date_shape.2.2 (str "w dniu 26.07.2023") (str "26") (str "07") (str "2023")
    (by decide) (by decide)

section ClaimFour

lemma routed_partition (L : List Routed) :
    (L.filterMap Routed.scoredEntry).length + (L.filterMap Routed.reviewEntry).length +
      (L.filterMap Routed.naEntry).length = L.length := by
  induction L with
  | nil => rfl
  | cons r t ih =>
    cases r <;>
      simp only [List.filterMap_cons, Routed.scoredEntry, Routed.reviewEntry,
        Routed.naEntry, List.length_cons] <;>
      omega

lemma sum_partition (L : List (NotAnsweredEntry ⊕ TemporalEntry)) :
    (L.filterMap (fun r => r.getLeft?)).length +
      (L.filterMap (fun r => r.getRight?)).length = L.length := by
  induction L with
  | nil => rfl
  | cons r t ih =>
    cases r with
    | inl e =>
      show (e :: t.filterMap (fun r => r.getLeft?)).length +
        (t.filterMap (fun r => r.getRight?)).length = t.length + 1
      simp only [List.length_cons]
      omega
    | inr e =>
      show (t.filterMap (fun r => r.getLeft?)).length +
        (e :: t.filterMap (fun r => r.getRight?)).length = t.length + 1
      simp only [List.length_cons]
      omega

lemma negPhase_no_review (gt : GroundTruth) (subs : Submissions) :
    (routedNegPhase gt subs).filterMap Routed.reviewEntry = [] := by
  unfold routedNegPhase
  induction gt.negative_questions with
  | nil => rfl
  | cons q t ih =>
    rw [List.map_cons, List.filterMap_cons]
    have hq : (routeNegativeQuestion subs q).reviewEntry = none := by
      unfold routeNegativeQuestion
      rcases List.lookup q.id subs with _ | a <;> rfl
    rw [hq]
    exact ih

lemma routedAutoPhase_length (gt : GroundTruth) (subs : Submissions) :
    (routedAutoPhase gt subs).length =
      (auto_score_categories.map (fun cat => (categoryQuestions gt cat).length)).sum := by
  unfold routedAutoPhase
  rw [List.length_flatMap]
  congr 1
  exact List.map_congr_left (fun cat _ => List.length_map _ _)

end ClaimFour

/-- Claim C4: `evaluate_submissions` partitions the question occurrences:
    the four result lists together hold exactly one entry per question
    occurrence, auto-score questions route to human review exactly when the
    expected answer exceeds 80 characters, otherwise to not-answered when
    unanswered and to auto-scored when answered; qualitative questions
    always reach human review; negative and temporal questions route to
    not-answered when unanswered, and to auto-scored respectively temporal
    when answered. -/
theorem evaluate_submissions_partition :
    (∀ gt subs,
      (evaluate_submissions gt subs).auto_scored.length +
        (evaluate_submissions gt subs).human_review.length +
        (evaluate_submissions gt subs).temporal.length +
        (evaluate_submissions gt subs).not_answered.length =
      (auto_score_categories.map (fun cat => (categoryQuestions gt cat).length)).sum +
        gt.qualitative_questions.length + gt.negative_questions.length +
        gt.temporal_filter_questions.length) ∧
    (∀ subs cat q, (∃ e, routeAutoQuestion subs cat q = Routed.review e) ↔
      AUTO_SCORE_MAX_LENGTH < q.expected_answer.length) ∧
    (∀ subs cat q, (∃ e, routeAutoQuestion subs cat q = Routed.notAnswered e) ↔
      (q.expected_answer.length ≤ AUTO_SCORE_MAX_LENGTH ∧
        List.lookup q.id subs = none)) ∧
    (∀ subs cat q, (∃ e, routeAutoQuestion subs cat q = Routed.scored e) ↔
      (q.expected_answer.length ≤ AUTO_SCORE_MAX_LENGTH ∧
        ∃ a, List.lookup q.id subs = some a)) ∧
    (∀ gt subs q, q ∈ gt.qualitative_questions →
      qualitativeReviewEntry subs q ∈ (evaluate_submissions gt subs).human_review) ∧
    (∀ subs q, (∃ e, routeNegativeQuestion subs q = Routed.notAnswered e) ↔
      List.lookup q.id subs = none) ∧
    (∀ subs q, (∃ e, routeNegativeQuestion subs q = Routed.scored e) ↔
      ∃ a, List.lookup q.id subs = some a) ∧
    (∀ subs q, ¬∃ e, routeNegativeQuestion subs q = Routed.review e) ∧
    (∀ subs q, (∃ e, routeTemporalQuestion subs q = Sum.inl e) ↔
      List.lookup q.id subs = none) ∧
    (∀ subs q, (∃ e, routeTemporalQuestion subs q = Sum.inr e) ↔
      ∃ a, List.lookup q.id subs = some a) := by
  refine ⟨?_, ?_, ?_, ?_, ?_, ?_, ?_, ?_, ?_, ?_⟩
  · intro gt subs
    show (autoScoredList gt subs).length + (humanReviewList gt subs).length +
      (temporalList gt subs).length + (notAnsweredList gt subs).length = _
    unfold autoScoredList humanReviewList temporalList notAnsweredList
    simp only [List.length_append, List.length_map]
    have hA := routed_partition (routedAutoPhase gt subs)
    have hN := routed_partition (routedNegPhase gt subs)
    have hT := sum_partition (routedTempPhase gt subs)
    rw [negPhase_no_review] at hN
    have hAlen := routedAutoPhase_length gt subs
    have hNlen : (routedNegPhase gt subs).length = gt.negative_questions.length := by
      unfold routedNegPhase
      exact List.length_map _ _
    have hTlen : (routedTempPhase gt subs).length =
        gt.temporal_filter_questions.length := by
      unfold routedTempPhase
      exact List.length_map _ _
    simp only [List.length_nil] at hN
    omega
  · intro subs cat q
    unfold routeAutoQuestion
    split_ifs with h80
    · simp [h80]
    · rcases List.lookup q.id subs with _ | a <;> (simp; try omega)
  · intro subs cat q
    unfold routeAutoQuestion
    split_ifs with h80
    · simp
      omega
    · rcases List.lookup q.id subs with _ | a <;> (simp; try omega)
  · intro subs cat q
    unfold routeAutoQuestion
    split_ifs with h80
    · simp
      omega
    · rcases hl : List.lookup q.id subs with _ | a <;> (simp; try omega)
  · intro gt subs q hq
    show _ ∈ humanReviewList gt subs
    unfold humanReviewList
    exact List.mem_append_right _ (List.mem_map_of_mem _ hq)
  · intro subs q
    unfold routeNegativeQuestion
    rcases List.lookup q.id subs with _ | a <;> simp
  · intro subs q
    unfold routeNegativeQuestion
    rcases List.lookup q.id subs with _ | a <;> simp
  · intro subs q
    unfold routeNegativeQuestion
    rcases List.lookup q.id subs with _ | a <;> simp
  · intro subs q
    unfold routeTemporalQuestion
    rcases List.lookup q.id subs with _ | a <;> simp
  · intro subs q
    unfold routeTemporalQuestion
    rcases List.lookup q.id subs with _ | a <;> simp

/-- Witness for C4 at concrete inputs. -/
theorem evaluate_submissions_partition_witness :
    (∃ e, routeAutoQuestion subsEx (str "exact_match_questions")
        { id := str "q002", question_pl := some (str "Opisz"),
          expected_answer := List.replicate 81 120 } = Routed.review e) ∧
    qualitativeReviewEntry subsEx
        { id := str "q010", question_pl := some (str "Oceń"),
          rubric_id := some (str "r1") } ∈
      (evaluate_submissions gtEx subsEx).human_review :=
  ⟨(evaluate_submissions_partition.2.1 subsEx (str "exact_match_questions")
      { id := str "q002", question_pl := some (str "Opisz"),
        expected_answer := List.replicate 81 120 }).mpr (by decide),
   evaluate_submissions_partition.2.2.2.2.1 gtEx subsEx
     { id := str "q010", question_pl := some (str "Oceń"),
       rubric_id := some (str "r1") } (by decide)⟩

section ClaimFive

lemma trichotomy_counts (L : List AutoEntry)
    (h : ∀ e ∈ L, e.score = 0 ∨ e.score = 1/2 ∨ e.score = 1) :
    (L.filter (fun r => decide (r.score = 1))).length +
      (L.filter (fun r => decide (r.score = 1/2))).length +
      (L.filter (fun r => decide (r.score = 0))).length = L.length := by
  induction L with
  | nil => rfl
  | cons e t ih =>
    have ht := ih (fun x hx => h x (List.mem_cons_of_mem e hx))
    rcases h e (List.mem_cons_self e t) with h0 | hh | h1
    · have f1 : decide (e.score = 1) = false := decide_eq_false (by rw [h0]; norm_num)
      have f2 : decide (e.score = 1/2) = false := decide_eq_false (by rw [h0]; norm_num)
      have f3 : decide (e.score = 0) = true := decide_eq_true h0
      simp only [List.filter_cons, f1, f2, f3, if_true, if_false, Bool.false_eq_true,
        List.length_cons]
      omega
    · have f1 : decide (e.score = 1) = false := decide_eq_false (by rw [hh]; norm_num)
      have f2 : decide (e.score = 1/2) = true := decide_eq_true hh
      have f3 : decide (e.score = 0) = false := decide_eq_false (by rw [hh]; norm_num)
      simp only [List.filter_cons, f1, f2, f3, if_true, if_false, Bool.false_eq_true,
        List.length_cons]
      omega
    · have f1 : decide (e.score = 1) = true := decide_eq_true h1
      have f2 : decide (e.score = 1/2) = false := decide_eq_false (by rw [h1]; norm_num)
      have f3 : decide (e.score = 0) = false := decide_eq_false (by rw [h1]; norm_num)
      simp only [List.filter_cons, f1, f2, f3, if_true, if_false, Bool.false_eq_true,
        List.length_cons]
      omega

lemma trichotomy_sum (L : List AutoEntry)
    (h : ∀ e ∈ L, e.score = 0 ∨ e.score = 1/2 ∨ e.score = 1) :
    (L.map (fun r => r.score)).sum =
      ((L.filter (fun r => decide (r.score = 1))).length : ℚ) +
        (1/2 : ℚ) * (L.filter (fun r => decide (r.score = 1/2))).length := by
  induction L with
  | nil => simp
  | cons e t ih =>
    have ht := ih (fun x hx => h x (List.mem_cons_of_mem e hx))
    rw [List.map_cons, List.sum_cons, ht]
    rcases h e (List.mem_cons_self e t) with h0 | hh | h1
    · have f1 : decide (e.score = 1) = false := decide_eq_false (by rw [h0]; norm_num)
      have f2 : decide (e.score = 1/2) = false := decide_eq_false (by rw [h0]; norm_num)
      simp only [List.filter_cons, f1, f2, if_false, Bool.false_eq_true]
      rw [h0]
      ring
    · have f1 : decide (e.score = 1) = false := decide_eq_false (by rw [hh]; norm_num)
      have f2 : decide (e.score = 1/2) = true := decide_eq_true hh
      simp only [List.filter_cons, f1, f2, if_true, if_false, Bool.false_eq_true,
        List.length_cons]
      rw [hh]
      push_cast
      ring
    · have f1 : decide (e.score = 1) = true := decide_eq_true h1
      have f2 : decide (e.score = 1/2) = false := decide_eq_false (by rw [h1]; norm_num)
      simp only [List.filter_cons, f1, f2, if_true, if_false, Bool.false_eq_true,
        List.length_cons]
      rw [h1]
      push_cast
      ring

end ClaimFive

/-- Claim C5: the summary of `evaluate_submissions` is consistent with the
    per-question results: the three credit counters partition the
    auto-scored list, the total score is full plus half of partial credit,
    the percentage is the rounded ratio (0 for an empty list), temporal
    passes never exceed the temporal total, and the review / not-answered
    counters equal the list lengths. -/
theorem evaluate_submissions_summary_consistent (gt : GroundTruth) (subs : Submissions) :
    ((evaluate_submissions gt subs).summary.full_credit_count +
        (evaluate_submissions gt subs).summary.partial_credit_count +
        (evaluate_submissions gt subs).summary.wrong_count =
      (evaluate_submissions gt subs).summary.auto_scored_max_score) ∧
    ((evaluate_submissions gt subs).summary.auto_scored_max_score =
      (evaluate_submissions gt subs).auto_scored.length) ∧
    ((evaluate_submissions gt subs).summary.auto_scored_total_score =
      ((evaluate_submissions gt subs).summary.full_credit_count : ℚ) +
        (1/2 : ℚ) * (evaluate_submissions gt subs).summary.partial_credit_count) ∧
    ((evaluate_submissions gt subs).summary.auto_scored_max_score ≠ 0 →
      (evaluate_submissions gt subs).summary.auto_scored_percentage =
        pyRound1 (100 * (evaluate_submissions gt subs).summary.auto_scored_total_score /
          (evaluate_submissions gt subs).summary.auto_scored_max_score)) ∧
    ((evaluate_submissions gt subs).auto_scored = [] →
      (evaluate_submissions gt subs).summary.auto_scored_percentage = 0) ∧
    ((evaluate_submissions gt subs).summary.temporal_pass ≤
      (evaluate_submissions gt subs).summary.temporal_total) ∧
    ((evaluate_submissions gt subs).summary.human_review_count =
      (evaluate_submissions gt subs).human_review.length) ∧
    ((evaluate_submissions gt subs).summary.not_answered_count =
      (evaluate_submissions gt subs).not_answered.length) := by
  refine ⟨?_, rfl, ?_, ?_, ?_, ?_, rfl, rfl⟩
  · exact trichotomy_counts (autoScoredList gt subs) (autoScoredList_trichotomy gt subs)
  · exact trichotomy_sum (autoScoredList gt subs) (autoScoredList_trichotomy gt subs)
  · intro h
    show (if (autoScoredList gt subs).length ≠ 0 then
        pyRound1 (100 * ((autoScoredList gt subs).map (fun r => r.score)).sum /
          (autoScoredList gt subs).length)
      else 0) = _
    have h2 : (autoScoredList gt subs).length ≠ 0 := h
    rw [if_pos h2]
    rfl
  · intro h
    show (if (autoScoredList gt subs).length ≠ 0 then
        pyRound1 (100 * ((autoScoredList gt subs).map (fun r => r.score)).sum /
          (autoScoredList gt subs).length)
      else 0) = 0
    have h2 : autoScoredList gt subs = [] := h
    rw [h2]
    simp
  · exact List.length_filter_le _ _

/-- Witness for C5 at concrete inputs: the nonzero-max percentage equation
    at `gtEx`, and the empty-case percentage at the empty ground truth. -/
theorem evaluate_submissions_summary_consistent_witness :
    (evaluate_submissions gtEx subsEx).summary.auto_scored_percentage =
      pyRound1 (100 * (evaluate_submissions gtEx subsEx).summary.auto_scored_total_score /
        (evaluate_submissions gtEx subsEx).summary.auto_scored_max_score) ∧
    (evaluate_submissions {} []).summary.auto_scored_percentage = 0 :=
  ⟨(evaluate_submissions_summary_consistent gtEx subsEx).2.2.2.1
      (by with_unfolding_all decide),
   (evaluate_submissions_summary_consistent {} []).2.2.2.2.1 rfl⟩

section ClaimSeven

lemma foldl_counts_spec (data : DataDoc) :
    ∀ (tables : List Str) (acc : DBState × List (Str × Nat)),
      (tables.foldl (insertTableStep data) acc).2 =
        acc.2 ++ tables.filterMap (tableCount data)
  | [], acc => by simp
  | t :: ts, acc => by
    rw [List.foldl_cons, foldl_counts_spec data ts, List.filterMap_cons]
    unfold insertTableStep tableCount
    rcases hl : List.lookup t data with _ | rows
    · simp
    · rcases rows with _ | ⟨r0, rs⟩
      · simp
      · simp

lemma foldl_db_not_mem (data : DataDoc) :
    ∀ (tables : List Str) (acc : DBState × List (Str × Nat)) (t2 : Str),
      t2 ∉ tables → (tables.foldl (insertTableStep data) acc).1 t2 = acc.1 t2
  | [], acc, t2, _ => rfl
  | t :: ts, acc, t2, h => by
    rw [List.foldl_cons, foldl_db_not_mem data ts _ t2 (fun hm => h (List.mem_cons_of_mem t hm))]
    unfold insertTableStep
    have hne : t2 ≠ t := fun he => h (he ▸ List.mem_cons_self t ts)
    rcases List.lookup t data with _ | rows
    · rfl
    · rcases rows with _ | ⟨r0, rs⟩
      · rfl
      · show insertTableRows acc.1 t _ t2 = acc.1 t2
        unfold insertTableRows
        rw [if_neg hne]

lemma insertTableStep_self (data : DataDoc) (acc : DBState × List (Str × Nat)) (t : Str) :
    (insertTableStep data acc t).1 t = acc.1 t ++ tableRows data t := by
  unfold insertTableStep tableRows
  rcases List.lookup t data with _ | rows
  · simp
  · rcases rows with _ | ⟨r0, rs⟩
    · simp
    · show insertTableRows acc.1 t _ t = _
      unfold insertTableRows
      rw [if_pos rfl]

lemma foldl_db_mem (data : DataDoc) :
    ∀ (tables : List Str) (acc : DBState × List (Str × Nat)) (t2 : Str),
      tables.Nodup → t2 ∈ tables →
      (tables.foldl (insertTableStep data) acc).1 t2 = acc.1 t2 ++ tableRows data t2
  | [], _, t2, _, hm => absurd hm (List.not_mem_nil t2)
  | t :: ts, acc, t2, hnd, hm => by
    rw [List.foldl_cons]
    rcases List.mem_cons.mp hm with rfl | hm2
    · rw [foldl_db_not_mem data ts _ t2 (List.nodup_cons.mp hnd).1]
      exact insertTableStep_self data acc t2
    · rw [foldl_db_mem data ts _ t2 (List.nodup_cons.mp hnd).2 hm2]
      have hne : t2 ≠ t := by
        rintro rfl
        exact (List.nodup_cons.mp hnd).1 hm2
      congr 1
      unfold insertTableStep
      rcases List.lookup t data with _ | rows
      · rfl
      · rcases rows with _ | ⟨r0, rs⟩
        · rfl
        · show insertTableRows acc.1 t _ t2 = acc.1 t2
          unfold insertTableRows
          rw [if_neg hne]

lemma table_order_nodup : table_order.Nodup := by decide

end ClaimSeven

/-- Claim C7: `insert_data` visits only the eight fixed tables in order,
    skips tables absent from the data or with an empty row list, inserts one
    database row per JSON row (columns from the first row, NULL for columns
    a later row lacks, via `rowValues`), returns counts mapping each visited
    table to its row-list length, and `verify_database` returns true exactly
    when every listed table's stored row count equals its counts entry — in
    particular on the freshly loaded database. -/
theorem insert_data_verify_database_spec :
    (∀ db data, (insert_data db data).2 = table_order.filterMap (tableCount data)) ∧
    (∀ db data t n, (t, n) ∈ (insert_data db data).2 →
      t ∈ table_order ∧ ∃ r0 rs, List.lookup t data = some (r0 :: rs) ∧
        n = (r0 :: rs).length) ∧
    (∀ db data t, t ∈ table_order →
      (insert_data db data).1 t = db t ++ tableRows data t) ∧
    (∀ db data t, t ∉ table_order → (insert_data db data).1 t = db t) ∧
    (∀ data t r0 rs, List.lookup t data = some (r0 :: rs) →
      tableRows data t = (r0 :: rs).map (rowValues (r0.map Prod.fst))) ∧
    (∀ db counts, verify_database db counts = true ↔
      ∀ p ∈ counts, (db p.1).length = p.2) ∧
    (∀ data,
      verify_database (insert_data emptyDB data).1 (insert_data emptyDB data).2 = true) := by
  have hcounts : ∀ db data, (insert_data db data).2 = table_order.filterMap (tableCount data) := by
    intro db data
    unfold insert_data
    rw [foldl_counts_spec data table_order (db, [])]
    rfl
  have hmem : ∀ db data t n, (t, n) ∈ (insert_data db data).2 →
      t ∈ table_order ∧ ∃ r0 rs, List.lookup t data = some (r0 :: rs) ∧
        n = (r0 :: rs).length := by
    intro db data t n h
    rw [hcounts db data, List.mem_filterMap] at h
    obtain ⟨t2, ht2, hc⟩ := h
    unfold tableCount at hc
    rcases hl : List.lookup t2 data with _ | rows <;> rw [hl] at hc
    · exact absurd hc (by simp)
    · rcases rows with _ | ⟨r0, rs⟩
      · exact absurd hc (by simp)
      · simp only [Option.some.injEq, Prod.mk.injEq] at hc
        obtain ⟨rfl, rfl⟩ := hc
        exact ⟨ht2, r0, rs, hl, rfl⟩
  have hdbmem : ∀ db data t, t ∈ table_order →
      (insert_data db data).1 t = db t ++ tableRows data t := by
    intro db data t ht
    unfold insert_data
    exact foldl_db_mem data table_order (db, []) t table_order_nodup ht
  have hverify : ∀ (db : DBState) (counts : List (Str × Nat)),
      verify_database db counts = true ↔ ∀ p ∈ counts, (db p.1).length = p.2 := by
    intro db counts
    unfold verify_database
    rw [List.all_eq_true]
    constructor
    · intro h p hp
      have h2 := h p hp
      rwa [beq_iff_eq] at h2
    · intro h p hp
      rw [beq_iff_eq]
      exact h p hp
  refine ⟨hcounts, hmem, hdbmem, ?_, ?_, hverify, ?_⟩
  · intro db data t ht
    unfold insert_data
    exact foldl_db_not_mem data table_order (db, []) t ht
  · intro data t r0 rs hl
    unfold tableRows
    rw [hl]
  · intro data
    rw [hverify]
    rintro ⟨t, n⟩ hp
    obtain ⟨hto, r0, rs, hl, hn⟩ := hmem emptyDB data t n hp
    rw [hdbmem emptyDB data t hto]
    unfold tableRows
    rw [hl]
    show ((r0 :: rs).map (rowValues (r0.map Prod.fst))).length = n
    rw [List.length_map, hn]

/-- Witness for C7 at a concrete data document. -/
theorem insert_data_verify_database_spec_witness :
    (insert_data emptyDB dataEx).1 (str "clients") =
      emptyDB (str "clients") ++ tableRows dataEx (str "clients") ∧
    verify_database (insert_data emptyDB dataEx).1 (insert_data emptyDB dataEx).2 = true :=
  ⟨insert_data_verify_database_spec.2.2.1 emptyDB dataEx (str "clients") (by decide),
   insert_data_verify_database_spec.2.2.2.2.2.2 dataEx⟩
